import Mathlib

/-!
The find-or-create hooks of the grype `db/v6` dimension models.

A shallow embedding of `grype/db/v6/models.go`.

* Every table of the relational store is a list of rows; `Store` is the
  database behind the `tx *gorm.DB` handle that the hooks receive.
* A Go pointer (`*ID`, `*time.Time`) is a `Ptr`: the address of the cell and the
  value stored in it.  Go's `==` on pointers compares addresses (`ptrEq`).
* A struct scanned from a row by `First` gets freshly allocated cells for its
  pointer fields; the address used for them is an explicit argument (`fresh`).
* SQLite's `COLLATE NOCASE` folds the 26 upper case ASCII letters (`nocase`).
* Every hook returns a `Result`: the store after the call, the receiver after
  the call, and the returned `error` (`none` is Go's `nil`).
-/

namespace V6

/-! ## Basic types -/

/-- The Go type `ID int64`. -/
abbrev ID := Int

/-- An instant, the value of a `time.Time`. -/
abbrev Time := Int

/-- A non-nil Go pointer: the address of a cell and the value it holds. -/
structure Ptr (α : Type) where
  addr : Nat
  val : α
  deriving DecidableEq, Repr

/-- Go `==` on two pointers of the same type: both nil, or the same address. -/
def ptrEq {α : Type} : Option (Ptr α) → Option (Ptr α) → Bool
  | none, none => true
  | some a, some b => a.addr == b.addr
  | _, _ => false

/-- Errors returned by the store and by the hooks. -/
inductive Error where
  /-- The error `gorm.ErrRecordNotFound` of `First`. -/
  | ErrRecordNotFound
  /-- Any other failure reported by the storage engine. -/
  | storage (msg : String)
  /-- An insert rejected by a primary key or unique index. -/
  | constraintFailed
  /-- The error "CPE already exists for a different package". -/
  | cpeConflict
  /-- The error "failed to create CPE ...: %w". -/
  | createCpeFailed (cause : Error)
  /-- The error "failed to update existing provider record: %w". -/
  | updateProviderFailed (cause : Error)
  /-- The error "cannot have both version and version_pattern set". -/
  | versionAndPattern
  deriving DecidableEq, Repr

/-- The key of a string under SQLite's `NOCASE` collation (ASCII case folding). -/
def nocase (s : String) : List Char := s.data.map Char.toLower

/-- The SQL comparison `a = b collate nocase`. -/
def nocaseEq (a b : String) : Bool := nocase a == nocase b

deriving instance DecidableEq for Except

/-! ## In-memory structs and table rows -/

/-- The Go struct `Provider`. -/
structure Provider where
  ID : String
  Version : String
  Processor : String
  DateCaptured : Option (Ptr Time)
  InputDigest : String
  deriving DecidableEq, Repr

/-- A row of table `providers`. -/
structure ProviderRow where
  id : String
  version : String
  processor : String
  date_captured : Option Time
  input_digest : String
  deriving DecidableEq, Repr

/-- The Go struct `Cpe`. -/
structure Cpe where
  ID : V6.ID
  PackageID : Option (Ptr V6.ID)
  Part : String
  Vendor : String
  Product : String
  Edition : String
  Language : String
  SoftwareEdition : String
  TargetHardware : String
  TargetSoftware : String
  Other : String
  deriving DecidableEq, Repr

/-- A row of table `cpes`. -/
structure CpeRow where
  id : V6.ID
  package_id : Option V6.ID
  part : String
  vendor : String
  product : String
  edition : String
  language : String
  software_edition : String
  target_hardware : String
  target_software : String
  other : String
  deriving DecidableEq, Repr

/-- The Go struct `Package`. -/
structure Package where
  ID : V6.ID
  Ecosystem : String
  Name : String
  CPEs : List Cpe
  deriving DecidableEq, Repr

/-- A row of table `packages` (the CPEs live in table `cpes`). -/
structure PackageRow where
  id : V6.ID
  ecosystem : String
  name : String
  deriving DecidableEq, Repr

/-- The Go struct `OperatingSystem`; it has no pointer field, so it is also the
row type of table `operating_systems`. -/
structure OperatingSystem where
  ID : V6.ID
  Name : String
  ReleaseID : String
  MajorVersion : String
  MinorVersion : String
  LabelVersion : String
  Codename : String
  deriving DecidableEq, Repr

/-- The database behind a `*gorm.DB` handle.  `writes` counts the write
statements (INSERT, UPDATE) executed so far. -/
structure Store where
  providers : List ProviderRow
  packages : List PackageRow
  operating_systems : List OperatingSystem
  cpes : List CpeRow
  writes : Nat
  deriving DecidableEq, Repr

/-- What a hook leaves behind: the store, the receiver and the returned error. -/
structure Result (α : Type) where
  tx : Store
  recv : α
  err : Option Error
  deriving DecidableEq, Repr

/-! ## The storage layer (gorm over SQLite) -/

/-- The row `ORDER BY key LIMIT 1` picks among the rows of a non-empty list. -/
def leastBy {α : Type} (key : α → V6.ID) (r : α) (rs : List α) : α :=
  rs.foldl (fun best x => if key x < key best then x else best) r

/-- The gorm call `tx.Where(cond).First(&dest)` on a table with an integer
primary key: the matching row with the least key, or `ErrRecordNotFound`. -/
def First {α : Type} (key : α → V6.ID) (rows : List α) (cond : α → Bool) : Except Error α :=
  match rows.filter cond with
  | [] => .error .ErrRecordNotFound
  | r :: rs => .ok (leastBy key r rs)

/-- Scan a `providers` row into a struct; the cell of `DateCaptured` is
allocated at `fresh`. -/
def ProviderRow.scan (fresh : Nat) (r : ProviderRow) : Provider :=
  { ID := r.id, Version := r.version, Processor := r.processor,
    DateCaptured := r.date_captured.map (fun t => ⟨fresh, t⟩), InputDigest := r.input_digest }

/-- The column values of a `Provider` struct. -/
def Provider.toRow (p : Provider) : ProviderRow :=
  { id := p.ID, version := p.Version, processor := p.Processor,
    date_captured := p.DateCaptured.map (fun t => t.val), input_digest := p.InputDigest }

/-- The gorm call `tx.Where("id = ?", id).First(&existing)` on `providers`.  The
key is a string compared exactly, so all matching rows share the same key. -/
def FirstProvider (fresh : Nat) (rows : List ProviderRow) (id : String) : Except Error Provider :=
  match rows.find? (fun r => r.id == id) with
  | some r => .ok (r.scan fresh)
  | none => .error .ErrRecordNotFound

/-- The gorm call `tx.Save(&v)` for a provider with a non-empty primary key:
update the rows with the primary key of `v`, insert `v` when there is none. -/
def Store.SaveProvider (tx : Store) (v : Provider) : Store × Option Error :=
  if tx.providers.any (fun r => r.id == v.ID) then
    ({ tx with providers := tx.providers.map (fun r => if r.id == v.ID then v.toRow else r),
               writes := tx.writes + 1 }, none)
  else
    ({ tx with providers := tx.providers ++ [v.toRow], writes := tx.writes + 1 }, none)

/-- Scan a `cpes` row into a struct; the cell of `PackageID` is allocated at
`fresh`. -/
def CpeRow.scan (fresh : Nat) (r : CpeRow) : Cpe :=
  { ID := r.id, PackageID := r.package_id.map (fun v => ⟨fresh, v⟩),
    Part := r.part, Vendor := r.vendor, Product := r.product, Edition := r.edition,
    Language := r.language, SoftwareEdition := r.software_edition,
    TargetHardware := r.target_hardware, TargetSoftware := r.target_software,
    Other := r.other }

/-- The column values of a `Cpe` struct, stored under primary key `id`. -/
def Cpe.toRow (c : Cpe) (id : V6.ID) : CpeRow :=
  { id := id, package_id := c.PackageID.map (fun q => q.val),
    part := c.Part, vendor := c.Vendor, product := c.Product, edition := c.Edition,
    language := c.Language, software_edition := c.SoftwareEdition,
    target_hardware := c.TargetHardware, target_software := c.TargetSoftware,
    other := c.Other }

/-- Scan a `packages` row into a struct; `First` loads no association, so
`CPEs` is nil. -/
def PackageRow.scan (r : PackageRow) : Package :=
  { ID := r.id, Ecosystem := r.ecosystem, Name := r.name, CPEs := [] }

/-- The condition `ecosystem = ? collate nocase AND name = ? collate nocase`. -/
def packageWhere (ecosystem name : String) (r : PackageRow) : Bool :=
  nocaseEq r.ecosystem ecosystem && nocaseEq r.name name

/-- The condition
`name = ? collate nocase AND major_version = ? AND minor_version = ?`. -/
def osWhere (name major minor : String) (r : OperatingSystem) : Bool :=
  nocaseEq r.Name name && r.MajorVersion == major && r.MinorVersion == minor

/-- The condition built by `cpeWhereClause`:
`part = ? AND vendor = ? AND product = ? AND edition = ? AND language = ? AND
software_edition = ? AND target_hardware = ? AND target_software = ? AND
other = ? collate nocase`.  The postfix `collate nocase` belongs to the last
comparison only; the other eight use the default binary collation of their
columns.  A nil `c` adds no condition. -/
def cpeWhereClause : Option Cpe → CpeRow → Bool
  | none, _ => true
  | some c, r =>
    r.part == c.Part && r.vendor == c.Vendor && r.product == c.Product &&
    r.edition == c.Edition && r.language == c.Language &&
    r.software_edition == c.SoftwareEdition && r.target_hardware == c.TargetHardware &&
    r.target_software == c.TargetSoftware && nocaseEq r.other c.Other

/-- The lookup `cpeWhereClause(tx, c).First(&existing)`. -/
def FirstCpe (fresh : Nat) (tx : Store) (c : Cpe) : Except Error Cpe :=
  (First CpeRow.id tx.cpes (cpeWhereClause (some c))).map (CpeRow.scan fresh)

/-- Two rows collide on the unique index `idx_cpe`, which covers the nine
descriptive columns, each with `collate:NOCASE`. -/
def idxCpeClash (a b : CpeRow) : Bool :=
  nocaseEq a.part b.part && nocaseEq a.vendor b.vendor && nocaseEq a.product b.product &&
  nocaseEq a.edition b.edition && nocaseEq a.language b.language &&
  nocaseEq a.software_edition b.software_edition &&
  nocaseEq a.target_hardware b.target_hardware &&
  nocaseEq a.target_software b.target_software && nocaseEq a.other b.other

/-- The key an auto-increment primary key column assigns next. -/
def nextID (rows : List CpeRow) : V6.ID :=
  rows.foldl (fun m r => max m r.id) 0 + 1

/-! ## `Cpe` -/

/-- The body of `Cpe.BeforeCreate` after the lookup, whose outcome is `result`. -/
def Cpe.afterFirst (tx : Store) (c : Cpe) : Except Error Cpe → Result Cpe
  | .ok existing =>
    if c.PackageID ≠ none ∧ ptrEq c.PackageID existing.PackageID = false then
      ⟨tx, c, some .cpeConflict⟩
    else
      -- if the record already exists, then we should use the existing record
      ⟨tx, existing, none⟩
  | .error _ => ⟨tx, c, none⟩

/-- The hook `func (c *Cpe) BeforeCreate(tx *gorm.DB) error`. -/
def Cpe.BeforeCreate (tx : Store) (fresh : Nat) (c : Cpe) : Result Cpe :=
  Cpe.afterFirst tx c (FirstCpe fresh tx c)

/-- The gorm call `tx.Create(&c)` for a `Cpe`: run the `BeforeCreate` hook, then
insert the row.  A zero `ID` is assigned by the auto-increment key; the insert
is rejected when the primary key or the unique index `idx_cpe` is taken. -/
def Store.CreateCpe (tx : Store) (fresh : Nat) (c : Cpe) : Result Cpe :=
  let h := Cpe.BeforeCreate tx fresh c
  match h.err with
  | some e => ⟨h.tx, h.recv, some e⟩
  | none =>
    let id := if h.recv.ID = 0 then nextID h.tx.cpes else h.recv.ID
    let row := h.recv.toRow id
    if h.tx.cpes.any (fun r => r.id == id) || h.tx.cpes.any (idxCpeClash row) then
      ⟨h.tx, h.recv, some .constraintFailed⟩
    else
      ⟨{ h.tx with cpes := h.tx.cpes ++ [row], writes := h.tx.writes + 1 },
       { h.recv with ID := id }, none⟩

/-! ## `Package` -/

/-- The loop `for i, newCPE := range p.CPEs` of `Package.BeforeCreate`, from
index `i` on, with `rest` the elements still to visit.  `existingPackage` is
the local variable, whose `ID` field lives at address `fresh`; the scan of
iteration `i` allocates at `fresh + 1 + i`. -/
def Package.mergeCPEs (existingPackage : Package) (fresh : Nat) :
    Nat → List Cpe → Store → Package → Result Package
  | _, [], tx, p => ⟨tx, p, none⟩
  | i, newCPE :: rest, tx, p =>
    match FirstCpe (fresh + 1 + i) tx newCPE with
    | .ok existingCPE =>
      -- if the record already exists, then we should use the existing record
      let p1 := { p with CPEs := p.CPEs.set i existingCPE }
      match existingCPE.PackageID with
      | none => Package.mergeCPEs existingPackage fresh (i + 1) rest tx p1
      | some q =>
        if q.val ≠ existingPackage.ID then ⟨tx, p1, some .cpeConflict⟩
        else Package.mergeCPEs existingPackage fresh (i + 1) rest tx p1
    | .error _ =>
      -- if the CPE does not exist, proceed with creating it
      let newCPE1 := { newCPE with PackageID := some ⟨fresh, existingPackage.ID⟩ }
      let p1 := { p with CPEs := p.CPEs.set i newCPE1 }
      let r := tx.CreateCpe (fresh + 1 + i) newCPE1
      match r.err with
      | some e => ⟨r.tx, p1, some (.createCpeFailed e)⟩
      | none => Package.mergeCPEs existingPackage fresh (i + 1) rest r.tx p1

/-- The body of `Package.BeforeCreate` after the package lookup, whose outcome
is `result`.  `self` is the address of the receiver's `ID` field. -/
def Package.afterFirst (tx : Store) (self fresh : Nat) (p : Package) :
    Except Error Package → Result Package
  | .ok existingPackage =>
    -- package exists; merge CPEs
    let r := Package.mergeCPEs existingPackage fresh 0 p.CPEs tx p
    match r.err with
    | some e => ⟨r.tx, r.recv, some e⟩
    | none =>
      -- use the existing package instead of creating a new one
      ⟨r.tx, existingPackage, none⟩
  | .error _ =>
    -- if the package does not exist, proceed with creating it
    ⟨tx, { p with CPEs := p.CPEs.map (fun c => { c with PackageID := some ⟨self, p.ID⟩ }) }, none⟩

/-- The lookup
`tx.Where("ecosystem = ? collate nocase AND name = ? collate nocase", ...).First(&existingPackage)`. -/
def FirstPackage (tx : Store) (p : Package) : Except Error Package :=
  (First PackageRow.id tx.packages (packageWhere p.Ecosystem p.Name)).map PackageRow.scan

/-- The hook `func (p *Package) BeforeCreate(tx *gorm.DB) error`. -/
def Package.BeforeCreate (tx : Store) (self fresh : Nat) (p : Package) : Result Package :=
  Package.afterFirst tx self fresh p (FirstPackage tx p)

/-! ## `OperatingSystem` -/

/-- The body of `OperatingSystem.BeforeCreate` after the lookup. -/
def OperatingSystem.afterFirst (tx : Store) (os : OperatingSystem) :
    Except Error OperatingSystem → Result OperatingSystem
  | .ok existing => ⟨tx, existing, none⟩
  | .error _ => ⟨tx, os, none⟩

/-- The hook `func (os *OperatingSystem) BeforeCreate(tx *gorm.DB) error`. -/
def OperatingSystem.BeforeCreate (tx : Store) (os : OperatingSystem) : Result OperatingSystem :=
  OperatingSystem.afterFirst tx os
    (First OperatingSystem.ID tx.operating_systems
      (osWhere os.Name os.MajorVersion os.MinorVersion))

/-! ## `Provider` -/

/-- The body of `Provider.BeforeCreate` after the lookup. -/
def Provider.afterFirst (tx : Store) (p : Provider) : Except Error Provider → Result Provider
  | .ok existing =>
    if existing.Processor == p.Processor && ptrEq existing.DateCaptured p.DateCaptured &&
        existing.InputDigest == p.InputDigest && p.Version == existing.Version then
      -- record already exists
      ⟨tx, { p with ID := existing.ID }, none⟩
    else
      -- overwrite the existing provider if found
      let existing1 := { existing with Processor := p.Processor, DateCaptured := p.DateCaptured,
                                       InputDigest := p.InputDigest, Version := p.Version }
      match tx.SaveProvider existing1 with
      | (tx1, some e) => ⟨tx1, p, some (.updateProviderFailed e)⟩
      | (tx1, none) => ⟨tx1, p, none⟩
  | .error _ =>
    -- create a new provider record if not found
    ⟨tx, p, none⟩

/-- The hook `func (p *Provider) BeforeCreate(tx *gorm.DB) error`. -/
def Provider.BeforeCreate (tx : Store) (fresh : Nat) (p : Provider) : Result Provider :=
  Provider.afterFirst tx p (FirstProvider fresh tx.providers p.ID)


/-! ## `OperatingSystem` versions -/

/-- The method `func (os *OperatingSystem) VersionNumber() string`; `none` is the
nil receiver. -/
def OperatingSystem.VersionNumber : Option OperatingSystem → String
  | none => ""
  | some os =>
    if os.MinorVersion ≠ "" then os.MajorVersion ++ "." ++ os.MinorVersion
    else os.MajorVersion

/-- The method `func (os *OperatingSystem) Version() string`; `none` is the nil
receiver. -/
def OperatingSystem.Version : Option OperatingSystem → String
  | none => ""
  | some os =>
    if os.LabelVersion ≠ "" then os.LabelVersion
    else if os.MajorVersion ≠ "" then
      if os.MinorVersion ≠ "" then os.MajorVersion ++ "." ++ os.MinorVersion
      else os.MajorVersion
    else os.Codename

/-! ## `OperatingSystemSpecifierOverride` -/

/-- The Go struct `OperatingSystemSpecifierOverride`; the `*string` fields are
never compared, so only nil or the pointed-to string is kept. -/
structure OperatingSystemSpecifierOverride where
  Alias : String
  Version : String
  VersionPattern : String
  Codename : String
  ReplacementName : Option String
  ReplacementMajorVersion : Option String
  ReplacementMinorVersion : Option String
  ReplacementLabelVersion : Option String
  Rolling : Bool
  deriving DecidableEq, Repr

/-- The hook
`func (os *OperatingSystemSpecifierOverride) BeforeCreate(_ *gorm.DB) error`. -/
def OperatingSystemSpecifierOverride.BeforeCreate (tx : Store)
    (os : OperatingSystemSpecifierOverride) : Result OperatingSystemSpecifierOverride :=
  if os.Version ≠ "" ∧ os.VersionPattern ≠ "" then ⟨tx, os, some .versionAndPattern⟩
  else ⟨tx, os, none⟩

/-! ## `Cpe.String` -/

/-- The Go function `strings.Join(elems, sep)`. -/
def Join : List String → String → String
  | [], _ => ""
  | [a], _ => a
  | a :: b :: rest, sep => a ++ sep ++ Join (b :: rest) sep

/-- The method `func (c Cpe) String() string`: the loop replaces every empty
element of `parts` by `"*"`. -/
def Cpe.String (c : Cpe) : String :=
  let parts := ["cpe:2.3", c.Part, c.Vendor, c.Product, c.Edition, c.Language,
    c.SoftwareEdition, c.TargetHardware, c.TargetSoftware, c.Other]
  Join (parts.map (fun part => if part == "" then "*" else part)) ":"

/-! ## `Blob` -/

/-- The Go struct `Blob`. -/
structure Blob where
  ID : V6.ID
  Value : String
  deriving DecidableEq, Repr

/-- The Go struct `BlobDigest`; `ID` is the digest. -/
structure BlobDigest where
  ID : String
  BlobID : V6.ID
  Blob : Blob
  deriving DecidableEq, Repr

/-- The hexadecimal digit of a number below 16, as `%x` prints it. -/
def hexDigit (n : Nat) : Char := "0123456789abcdef".data.getD n '0'

/-- The eight bytes `h.Sum(nil)` of a 64-bit hash value, most significant first. -/
def sum64Bytes (h : Nat) : List Nat :=
  (List.range 8).map (fun i => h / 256 ^ (7 - i) % 256)

/-- The text `fmt.Sprintf("%x", bytes)` of a byte slice: two digits per byte. -/
def hexBytes (bytes : List Nat) : String :=
  String.mk (bytes.flatMap (fun b => [hexDigit (b / 16), hexDigit (b % 16)]))

/-- The method `func (b Blob) computeDigest() string`.  The hash of the library
`xxhash` is the parameter `xxh64`: the 64-bit sum of the bytes of a string
(writing to the hash never fails, so the panic branch is not reached). -/
def Blob.computeDigest (xxh64 : String → Nat) (b : Blob) : String :=
  "xxh64:" ++ hexBytes (sum64Bytes (xxh64 b.Value))

/-! ## Specification vocabulary -/

/-- Store `tx1` is store `tx` with rows appended to `cpes` and nothing else
changed: each appended row carries the nine fields of a CPE of `cs` and
belongs to package `pid`; one write was executed per appended row. -/
def Store.Extends (cs : List Cpe) (pid : V6.ID) (tx tx1 : Store) : Prop :=
  tx1.providers = tx.providers ∧ tx1.packages = tx.packages ∧
  tx1.operating_systems = tx.operating_systems ∧
  ∃ added : List CpeRow, tx1.cpes = tx.cpes ++ added ∧ tx1.writes = tx.writes + added.length ∧
    ∀ a ∈ added, ∃ c ∈ cs, a = { c.toRow a.id with package_id := some pid }

/-- The error says that a CPE creation failed: it is the error
"failed to create CPE ...", which `Package.BeforeCreate` returns exactly when a
`tx.Create(&newCPE)` returns an error. -/
def createFailed : Option Error → Bool
  | some (.createCpeFailed _) => true
  | _ => false

/-- The rendering of one CPE field: `*` for the empty string. -/
def wildcard (field : String) : String := if field = "" then "*" else field

/-- The nine descriptive fields of a CPE, in the order of `Cpe.String`. -/
def cpeFields (c : Cpe) : List String :=
  [c.Part, c.Vendor, c.Product, c.Edition, c.Language, c.SoftwareEdition,
   c.TargetHardware, c.TargetSoftware, c.Other]

/-- The Go function `strings.Split(s, sep)` for a separator of one character,
used to read a rendered CPE back. -/
def Split (s : String) (sep : Char) : List String :=
  (s.data.splitOn sep).map String.mk

/-- The blob tables: `blobs` and the digest index `blob_digests`. -/
structure BlobStore where
  blobs : List Blob
  digests : List BlobDigest
  deriving DecidableEq, Repr

/-- Modelled from the spec: the blob store operation `put` is not among the
source files.  "`put` computes a 64-bit content digest of the serialized
value, looks it up in the digest index, and returns the existing BlobID on a
hit; on a miss it creates a new Blob row, then a BlobDigest row pointing to
it." -/
def BlobStore.put (xxh64 : String → Nat) (s : BlobStore) (value : String) : BlobStore × V6.ID :=
  let digest := Blob.computeDigest xxh64 { ID := 0, Value := value }
  match s.digests.find? (fun d => d.ID == digest) with
  | some d => (s, d.BlobID)
  | none =>
    let blob : Blob := { ID := s.blobs.foldl (fun m b => max m b.ID) 0 + 1, Value := value }
    ({ blobs := s.blobs ++ [blob],
       digests := s.digests ++ [{ ID := digest, BlobID := blob.ID, Blob := blob }] }, blob.ID)

/-! ## Example data -/

/-- The CPE `cpe:2.3:a:apache:tomcat:*:*:*:*:*:*` of a caller, with no package. -/
def exCpe : Cpe :=
  { ID := 0, PackageID := none, Part := "a", Vendor := "apache", Product := "tomcat",
    Edition := "", Language := "", SoftwareEdition := "", TargetHardware := "",
    TargetSoftware := "", Other := "" }

/-- The stored row of `exCpe`, owned by package 5. -/
def exCpeRow : CpeRow := exCpe.toRow 1 |> fun r => { r with package_id := some 5 }

/-- A store with package 5 (`npm`, `left-pad`), its CPE `exCpeRow`, the
operating system `debian 10.1` and the provider `nvd`. -/
def exStore : Store :=
  { providers := [{ id := "nvd", version := "1", processor := "vunnel",
                    date_captured := some 1700000000, input_digest := "xxh64:1" }],
    packages := [{ id := 5, ecosystem := "npm", name := "left-pad" }],
    operating_systems := [{ ID := 3, Name := "debian", ReleaseID := "debian",
                            MajorVersion := "10", MinorVersion := "1",
                            LabelVersion := "", Codename := "buster" }],
    cpes := [exCpeRow],
    writes := 0 }

end V6

/-! # The `db search` and `explore cve` commands -/

namespace Commands

/-! ## The v5 namespace of a search result -/

/-- Modelled from the spec: the alias table `languageOf` of `v5Namespace`, whose
source file is not among the sources (only its test `TestV5Namespace` is).
"`{golang,go-module→go; composer,php-composer→php; cargo,rust-crate→rust;
pub,dart-pub→dart; nuget→dotnet; maven→java; swifturl→swift;
npm,node→javascript; pypi,pip→python; rubygems,gem→ruby}`.  Unknown
ecosystems pass through unchanged." -/
def languageOf (ecosystem : String) : String :=
  if ecosystem = "golang" ∨ ecosystem = "go-module" then "go"
  else if ecosystem = "composer" ∨ ecosystem = "php-composer" then "php"
  else if ecosystem = "cargo" ∨ ecosystem = "rust-crate" then "rust"
  else if ecosystem = "pub" ∨ ecosystem = "dart-pub" then "dart"
  else if ecosystem = "nuget" then "dotnet"
  else if ecosystem = "maven" then "java"
  else if ecosystem = "swifturl" then "swift"
  else if ecosystem = "npm" ∨ ecosystem = "node" then "javascript"
  else if ecosystem = "pypi" ∨ ecosystem = "pip" then "python"
  else if ecosystem = "rubygems" ∨ ecosystem = "gem" then "ruby"
  else ecosystem

/-- Modelled from the spec: "the major-version-only component (substring
before the first `.`)" of an OS version. -/
def majorOf (osVersion : String) : String :=
  String.mk (osVersion.data.takeWhile (fun ch => ch ≠ '.'))

/-- Modelled from the spec: the "parsed major version" as a number; `none` when
the text is empty or has a character that is not a decimal digit. -/
def parseMajor (osVersion : String) : Option Nat :=
  match (majorOf osVersion).data with
  | [] => none
  | ds =>
    if ds.all Char.isDigit then some (ds.foldl (fun n d => 10 * n + (d.toNat - 48)) 0)
    else none

/-- Modelled from the spec: the family of an OS-based namespace.  "if
`osName == "mariner"` and its parsed major version ≥ 3 → `"azurelinux"`"; the
literal cases of the spec and of `TestV5Namespace` give `oraclelinux` for
`oracle` and `amazonlinux` for `amazon`; every other name is the family. -/
def familySlug (osName osVersion : String) : String :=
  if osName = "mariner" then
    match parseMajor osVersion with
    | some major => if 3 ≤ major then "azurelinux" else "mariner"
    | none => "mariner"
  else if osName = "oracle" then "oraclelinux"
  else if osName = "amazon" then "amazonlinux"
  else osName

/-- Modelled from the spec: "`versionLabel` = the major-version-only component
when `osName ∈ {redhat, oracle}`; otherwise the full `osVersion` string
unchanged". -/
def versionLabel (osName osVersion : String) : String :=
  if osName = "redhat" ∨ osName = "oracle" then majorOf osVersion else osVersion

/-- Modelled from the spec: the function `v5Namespace`, whose source file is not
among the sources.  Rules in priority order: provider `nvd` gives `nvd:cpe`;
provider `github` gives `github:language:` and the language of the ecosystem;
every other provider gives `<osName>:distro:<familySlug>:<versionLabel>` ("the
namespace prefix token is always `osName`, not the raw `provider` value"). -/
def v5Namespace (provider ecosystem osName osVersion : String) : String :=
  if provider = "nvd" then "nvd:cpe"
  else if provider = "github" then "github:language:" ++ languageOf ecosystem
  else osName ++ ":distro:" ++ familySlug osName osVersion ++ ":" ++ versionLabel osName osVersion

/-- The table `tests` of `TestV5Namespace`: provider, ecosystem, osName,
osVersion and the expected namespace. -/
def v5NamespaceTests : List (String × String × String × String × String) :=
  [("nvd", "", "", "", "nvd:cpe"),
   ("github", "golang", "", "", "github:language:go"),
   ("github", "go-module", "", "", "github:language:go"),
   ("github", "composer", "", "", "github:language:php"),
   ("github", "php-composer", "", "", "github:language:php"),
   ("github", "cargo", "", "", "github:language:rust"),
   ("github", "rust-crate", "", "", "github:language:rust"),
   ("github", "pub", "", "", "github:language:dart"),
   ("github", "dart-pub", "", "", "github:language:dart"),
   ("github", "nuget", "", "", "github:language:dotnet"),
   ("github", "maven", "", "", "github:language:java"),
   ("github", "swifturl", "", "", "github:language:swift"),
   ("github", "npm", "", "", "github:language:javascript"),
   ("github", "node", "", "", "github:language:javascript"),
   ("github", "pypi", "", "", "github:language:python"),
   ("github", "pip", "", "", "github:language:python"),
   ("github", "rubygems", "", "", "github:language:ruby"),
   ("github", "gem", "", "", "github:language:ruby"),
   ("ubuntu", "", "ubuntu", "22.04", "ubuntu:distro:ubuntu:22.04"),
   ("rhel", "", "redhat", "8", "redhat:distro:redhat:8"),
   ("debian", "", "debian", "11", "debian:distro:debian:11"),
   ("sles", "", "sles", "15.5", "sles:distro:sles:15.5"),
   ("alpine", "", "alpine", "3.18", "alpine:distro:alpine:3.18"),
   ("chainguard", "", "chainguard", "rolling", "chainguard:distro:chainguard:rolling"),
   ("wolfi", "", "wolfi", "rolling", "wolfi:distro:wolfi:rolling"),
   ("amazon", "", "amazon", "2023", "amazon:distro:amazonlinux:2023"),
   ("mariner", "", "mariner", "2.0", "mariner:distro:mariner:2.0"),
   ("mariner", "", "mariner", "3.0", "mariner:distro:azurelinux:3.0"),
   ("oracle", "", "oracle", "8", "oracle:distro:oraclelinux:8"),
   ("rhel", "", "redhat", "8.6", "redhat:distro:redhat:8"),
   ("rhel", "", "redhat", "9.2.1", "redhat:distro:redhat:9"),
   ("oracle", "", "oracle", "8.7", "oracle:distro:oraclelinux:8"),
   ("oracle", "", "oracle", "9.3.1", "oracle:distro:oraclelinux:9")]

/-! ## The command `cve` -/

/-- A Go `error` of the commands: a message, or a `multierror` of messages. -/
inductive Err where
  | msg (text : String)
  | multi (texts : List String)
  deriving DecidableEq, Repr

/-- The text `err.Error()` of a plain error. -/
def Err.text : Err → String
  | .msg t => t
  | .multi ts => String.intercalate "; " ts

/-- The fields of `vulnerability.Vulnerability` that `present` reads;
`Constraint` is the text of `v.Constraint.String()`. -/
structure Vulnerability where
  ID : String
  PackageName : String
  Namespace : String
  Constraint : String
  deriving DecidableEq, Repr

/-- A Go slice of vulnerabilities: `none` is the nil slice. -/
abbrev Vulnerabilities := Option (List Vulnerability)

/-- The Go builtin `len` on a slice. -/
def len (vs : Vulnerabilities) : Nat :=
  match vs with
  | none => 0
  | some l => l.length

/-- The Go struct `cveExploreOptions` (the database options are part of the
collaborators below). -/
structure cveExploreOptions where
  Output : String
  cveID : String
  deriving DecidableEq, Repr

/-- The collaborators of the command: the renderers of the libraries
`tablewriter` and `encoding/json`, the outcome of loading the database and
the lookup `str.Get(cveID, "")` of the store. -/
structure Collaborators where
  /-- What `table.Render()` writes for the given rows. -/
  renderTable : List (List String) → String
  /-- What `enc.Encode(vulnerabilities)` writes, or its error. -/
  encodeJSON : List Vulnerability → Except String String
  /-- The error of `grype.LoadVulnerabilityDB` and `validateDBLoad`, if any. -/
  loadDB : Option Err
  /-- The lookup `str.Get(cveID, "")`. -/
  get : String → Except Err Vulnerabilities

/-- The function `present`: the text in the writer after the call (`output` is
the text before) and the returned error. -/
def present (env : Collaborators) (outputFormat : String) (vulnerabilities : Vulnerabilities)
    (output : String) : String × Option Err :=
  match vulnerabilities with
  | none => (output, none)
  | some vs =>
    if outputFormat = "table" then
      let rows := vs.map (fun v => [v.ID, v.PackageName, v.Namespace, v.Constraint])
      (output ++ env.renderTable rows, none)
    else if outputFormat = "json" then
      match env.encodeJSON vs with
      | .error e => (output, some (.msg ("failed to encode diff information: " ++ e)))
      | .ok text => (output ++ text, none)
    else
      (output, some (.msg ("unsupported output format: " ++ outputFormat)))

/-- The function `runExploreCVE`: the texts passed to `bus.Report` and the
returned error. -/
def runExploreCVE (env : Collaborators) (opts : cveExploreOptions) (cveID : String) :
    List String × Option Err :=
  match env.loadDB with
  | some err => ([], some err)
  | none =>
    match env.get cveID with
    | .error err => ([], some err)
    | .ok vulnerabilities =>
      if len vulnerabilities = 0 then
        (["CVE doesn't exist in the DB\n"], none)
      else
        match present env opts.Output vulnerabilities "" with
        | (sb, some err) => ([sb], some (.multi [err.text]))
        | (sb, none) => ([sb], none)

/-- The validator `cobra.MaximumNArgs(n)`: an error when more than `n`
arguments are given. -/
def MaximumNArgs (n : Nat) (args : List String) : Option Err :=
  if args.length > n then
    some (.msg ("accepts at most " ++ toString n ++ " arg(s), received " ++ toString args.length))
  else none

/-- How a Go function call ends: it returns, or it panics. -/
inductive Outcome (α : Type) where
  | returned (value : α)
  | panicked (text : String)
  deriving DecidableEq, Repr

/-- The function `RunE` of the command built by `ExploreCVE`:
`cveID = args[0]; return runExploreCVE(opts, cveID)`. -/
def RunE (env : Collaborators) (opts : cveExploreOptions) (args : List String) :
    Outcome (List String × Option Err) :=
  match args with
  | [] => .panicked "runtime error: index out of range [0] with length 0"
  | cveID :: _ => .returned (runExploreCVE env opts cveID)

/-- The collaborators of an example run: the store knows one CVE. -/
def exEnv : Collaborators :=
  { renderTable := fun rows => String.intercalate "\n" (rows.map (String.intercalate "  ")),
    encodeJSON := fun vs => .ok (toString vs.length),
    loadDB := none,
    get := fun id =>
      if id = "CVE-2024-0001" then .ok (some [⟨"CVE-2024-0001", "tomcat", "nvd:cpe", "< 9.0.1"⟩])
      else .ok (some []) }

end Commands

namespace V6

/-! ## Lemmas on the storage layer -/

theorem leastBy_mem {α : Type} (key : α → V6.ID) (r : α) (rs : List α) :
    leastBy key r rs ∈ r :: rs := by
  unfold leastBy
  induction rs generalizing r with
  | nil => simp
  | cons x xs ih =>
    simp only [List.foldl_cons]
    have h := ih (if key x < key r then x else r)
    rcases List.mem_cons.1 h with h | h
    · rw [h]; split <;> simp
    · simp [h]

theorem leastBy_le {α : Type} (key : α → V6.ID) (r : α) (rs : List α) :
    ∀ x ∈ r :: rs, key (leastBy key r rs) ≤ key x := by
  unfold leastBy
  induction rs generalizing r with
  | nil => simp
  | cons y ys ih =>
    intro x hx
    simp only [List.foldl_cons]
    have h := ih (if key y < key r then y else r)
    have hb : key (if key y < key r then y else r) ≤ key r ∧
        key (if key y < key r then y else r) ≤ key y := by
      by_cases hlt : key y < key r
      · simp only [hlt, if_true]; exact ⟨le_of_lt hlt, le_refl _⟩
      · simp only [hlt, if_false]; exact ⟨le_refl _, not_lt.1 hlt⟩
    rcases List.mem_cons.1 hx with hx | hx
    · subst hx; exact le_trans (h _ (List.mem_cons_self _ _)) hb.1
    · rcases List.mem_cons.1 hx with hx | hx
      · subst hx; exact le_trans (h _ (List.mem_cons_self _ _)) hb.2
      · exact h x (List.mem_cons_of_mem _ hx)

theorem First_ok_mem {α : Type} {key : α → V6.ID} {rows : List α} {cond : α → Bool} {e : α}
    (h : First key rows cond = .ok e) : e ∈ rows ∧ cond e = true := by
  unfold First at h
  split at h
  · cases h
  · rename_i r rs hf
    injection h with h
    have hm : e ∈ rows.filter cond := by
      rw [hf, ← h]; exact leastBy_mem key r rs
    exact List.mem_filter.1 hm

theorem First_ok_le {α : Type} {key : α → V6.ID} {rows : List α} {cond : α → Bool} {e : α}
    (h : First key rows cond = .ok e) : ∀ x ∈ rows, cond x = true → key e ≤ key x := by
  unfold First at h
  split at h
  · cases h
  · rename_i r rs hf
    injection h with h
    intro x hx hc
    have hm : x ∈ r :: rs := by rw [← hf]; exact List.mem_filter.2 ⟨hx, hc⟩
    rw [← h]; exact leastBy_le key r rs x hm

theorem First_error {α : Type} {key : α → V6.ID} {rows : List α} {cond : α → Bool} {x : Error}
    (h : First key rows cond = .error x) :
    x = .ErrRecordNotFound ∧ ∀ r ∈ rows, cond r = false := by
  unfold First at h
  split at h
  · rename_i hf
    injection h with h
    refine ⟨h.symm, fun r hr => ?_⟩
    cases hc : cond r
    · rfl
    · have : r ∈ rows.filter cond := List.mem_filter.2 ⟨hr, hc⟩
      rw [hf] at this; cases this
  · cases h

theorem First_of_none {α : Type} (key : α → V6.ID) (rows : List α) (cond : α → Bool)
    (h : ∀ r ∈ rows, cond r = false) : First key rows cond = .error .ErrRecordNotFound := by
  cases hf : First key rows cond with
  | error x => rw [(First_error hf).1]
  | ok e =>
    have := First_ok_mem hf
    rw [h e this.1] at this
    cases this.2

theorem First_of_some {α : Type} (key : α → V6.ID) (rows : List α) (cond : α → Bool)
    (h : ∃ r ∈ rows, cond r = true) : ∃ e, First key rows cond = .ok e := by
  cases hf : First key rows cond with
  | ok e => exact ⟨e, rfl⟩
  | error x =>
    obtain ⟨r, hr, hc⟩ := h
    rw [(First_error hf).2 r hr] at hc
    cases hc

theorem First_congr {α : Type} (key : α → V6.ID) (rows rows' : List α) (cond : α → Bool)
    (h : rows.filter cond = rows'.filter cond) : First key rows cond = First key rows' cond := by
  unfold First; rw [h]


/-! ## `Cpe.BeforeCreate` -/

/-- C2: when the lookup finds a row and the incoming `PackageID` is a non-nil
pointer (allocated before the call, so not the cell of the scan) whose value
differs from the row's `package_id` (which may be NULL), `Cpe.BeforeCreate`
returns the conflict error and leaves store and receiver as they were. -/
theorem Cpe_BeforeCreate_conflict (tx : Store) (fresh : Nat) (c : Cpe) (row : CpeRow)
    (q : Ptr V6.ID)
    (hrow : First CpeRow.id tx.cpes (cpeWhereClause (some c)) = .ok row)
    (hq : c.PackageID = some q) (halloc : q.addr ≠ fresh)
    (_hdiff : row.package_id ≠ some q.val) :
    Cpe.BeforeCreate tx fresh c = ⟨tx, c, some .cpeConflict⟩ := by
  unfold Cpe.BeforeCreate FirstCpe
  rw [hrow]
  simp only [Except.map, Cpe.afterFirst]
  have hp : ptrEq c.PackageID (CpeRow.scan fresh row).PackageID = false := by
    rw [hq]
    cases hr : row.package_id <;> simp [CpeRow.scan, hr, ptrEq, halloc]
  rw [if_pos ⟨by rw [hq]; simp, hp⟩]

theorem Cpe_BeforeCreate_conflict_witness :
    Cpe.BeforeCreate exStore 1 { exCpe with PackageID := some ⟨0, 6⟩ }
      = ⟨exStore, { exCpe with PackageID := some ⟨0, 6⟩ }, some .cpeConflict⟩ :=
  Cpe_BeforeCreate_conflict exStore 1 { exCpe with PackageID := some ⟨0, 6⟩ } exCpeRow ⟨0, 6⟩
    (by decide) rfl (by decide) (by decide)

/-- C3 (the code at the failing input): the row of `exCpe` is owned by
package 5 and the incoming `PackageID` points to a cell holding 5, so the two
are equal as ID values; `Cpe.BeforeCreate` compares the pointers, which differ,
and returns the conflict error instead of nil. -/
theorem Cpe_BeforeCreate_equal_value_conflict :
    exCpeRow.package_id = some 5 ∧
    cpeWhereClause (some { exCpe with PackageID := some ⟨0, 5⟩ }) exCpeRow = true ∧
    Cpe.BeforeCreate exStore 1 { exCpe with PackageID := some ⟨0, 5⟩ }
      = ⟨exStore, { exCpe with PackageID := some ⟨0, 5⟩ }, some .cpeConflict⟩ := by
  decide

/-- The parts of C3 the code does satisfy: with a nil incoming `PackageID` the
receiver becomes the row found, and without a matching row the receiver is
left unchanged; both return nil. -/
theorem Cpe_BeforeCreate_nil_or_missing (tx : Store) (fresh : Nat) (c : Cpe) :
    (∀ row, First CpeRow.id tx.cpes (cpeWhereClause (some c)) = .ok row →
      c.PackageID = none → Cpe.BeforeCreate tx fresh c = ⟨tx, row.scan fresh, none⟩) ∧
    ((∀ r ∈ tx.cpes, cpeWhereClause (some c) r = false) →
      Cpe.BeforeCreate tx fresh c = ⟨tx, c, none⟩) := by
  constructor
  · intro row hrow hnil
    unfold Cpe.BeforeCreate FirstCpe
    rw [hrow]
    simp [Except.map, Cpe.afterFirst, hnil]
  · intro h
    unfold Cpe.BeforeCreate FirstCpe
    rw [First_of_none _ _ _ h]
    rfl

/-- C5 (the code at the failing input): a stored row that differs from the
query only in the letter case of `Vendor` equals it on all nine fields
ignoring case, and the lookup does not find it. -/
theorem cpe_lookup_vendor_case :
    idxCpeClash exCpeRow ({ exCpe with Vendor := "Apache" }.toRow 0) = true ∧
    cpeWhereClause (some { exCpe with Vendor := "Apache" }) exCpeRow = false ∧
    FirstCpe 1 exStore { exCpe with Vendor := "Apache" } = .error .ErrRecordNotFound := by
  decide

/-- What the lookup does match: a row equal to the query on the first eight
fields exactly and on `Other` ignoring case. -/
theorem cpeWhereClause_iff (c : Cpe) (r : CpeRow) :
    cpeWhereClause (some c) r = true ↔
      r.part = c.Part ∧ r.vendor = c.Vendor ∧ r.product = c.Product ∧ r.edition = c.Edition ∧
      r.language = c.Language ∧ r.software_edition = c.SoftwareEdition ∧
      r.target_hardware = c.TargetHardware ∧ r.target_software = c.TargetSoftware ∧
      nocase r.other = nocase c.Other := by
  simp [cpeWhereClause, nocaseEq, and_assoc]

/-! ## `OperatingSystem.BeforeCreate` -/

/-- C8: `OperatingSystem.BeforeCreate` returns nil and leaves the store as it
was; when some row has the incoming `Name` ignoring case and the incoming
`MajorVersion` and `MinorVersion` exactly, the receiver becomes such a row (the
one with the least ID), whatever the incoming `ReleaseID`, `LabelVersion` and
`Codename`; when no row has, the receiver is unchanged. -/
theorem OperatingSystem_BeforeCreate_spec (tx : Store) (os : OperatingSystem) :
    (OperatingSystem.BeforeCreate tx os).err = none ∧
    (OperatingSystem.BeforeCreate tx os).tx = tx ∧
    ((∃ e ∈ tx.operating_systems, nocase e.Name = nocase os.Name ∧
        e.MajorVersion = os.MajorVersion ∧ e.MinorVersion = os.MinorVersion) →
      ∃ e ∈ tx.operating_systems, nocase e.Name = nocase os.Name ∧
        e.MajorVersion = os.MajorVersion ∧ e.MinorVersion = os.MinorVersion ∧
        (OperatingSystem.BeforeCreate tx os).recv = e ∧
        ∀ os2 : OperatingSystem, os2.Name = os.Name → os2.MajorVersion = os.MajorVersion →
          os2.MinorVersion = os.MinorVersion →
          (OperatingSystem.BeforeCreate tx os2).recv = e) ∧
    ((∀ e ∈ tx.operating_systems, ¬ (nocase e.Name = nocase os.Name ∧
        e.MajorVersion = os.MajorVersion ∧ e.MinorVersion = os.MinorVersion)) →
      (OperatingSystem.BeforeCreate tx os).recv = os) := by
  have hw : ∀ e : OperatingSystem, osWhere os.Name os.MajorVersion os.MinorVersion e = true ↔
      (nocase e.Name = nocase os.Name ∧ e.MajorVersion = os.MajorVersion ∧
        e.MinorVersion = os.MinorVersion) := by
    intro e; simp [osWhere, nocaseEq, and_assoc]
  unfold OperatingSystem.BeforeCreate
  cases hf : First OperatingSystem.ID tx.operating_systems
      (osWhere os.Name os.MajorVersion os.MinorVersion) with
  | error x =>
    refine ⟨rfl, rfl, ?_, fun _ => rfl⟩
    rintro ⟨e, he, hm⟩
    have := (First_error hf).2 e he
    rw [(hw e).2 hm] at this
    cases this
  | ok e =>
    have hm := First_ok_mem hf
    refine ⟨rfl, rfl, fun _ => ⟨e, hm.1, ((hw e).1 hm.2).1, ((hw e).1 hm.2).2.1,
      ((hw e).1 hm.2).2.2, rfl, ?_⟩, ?_⟩
    · intro os2 h1 h2 h3
      rw [h1, h2, h3, hf]; rfl
    · intro h
      exact absurd ((hw e).1 hm.2) (h e hm.1)

theorem OperatingSystem_BeforeCreate_spec_witness :
    ∃ e ∈ exStore.operating_systems,
      (OperatingSystem.BeforeCreate exStore ⟨0, "Debian", "rel", "10", "1", "label", "code"⟩).recv = e ∧
      e.ReleaseID = "debian" ∧ e.LabelVersion = "" ∧ e.Codename = "buster" :=
  ((OperatingSystem_BeforeCreate_spec exStore ⟨0, "Debian", "rel", "10", "1", "label", "code"⟩).2.2.1
    ⟨⟨3, "debian", "debian", "10", "1", "", "buster"⟩, by decide, by decide⟩).elim
    fun e he => ⟨e, he.1, he.2.2.2.2.1, by
      have h := he.1
      have h2 : e = ⟨3, "debian", "debian", "10", "1", "", "buster"⟩ := by
        simpa [exStore] using h
      rw [h2]; decide⟩

/-! ## `Provider.BeforeCreate` -/

/-- C9 (the code at the failing input): the stored provider `nvd` and the
incoming one agree on `Processor`, `DateCaptured` (as timestamps),
`InputDigest` and `Version`; the hook compares the two `DateCaptured`
pointers, which differ, and executes a `Save`. -/
theorem Provider_BeforeCreate_equal_saves :
    (FirstProvider 1 exStore.providers "nvd").map Provider.toRow
      = .ok (Provider.toRow ⟨"nvd", "1", "vunnel", some ⟨0, 1700000000⟩, "xxh64:1"⟩) ∧
    (Provider.BeforeCreate exStore 1 ⟨"nvd", "1", "vunnel", some ⟨0, 1700000000⟩, "xxh64:1"⟩).tx.writes
      = exStore.writes + 1 := by
  decide

/-- The part of C9 the code does satisfy: when both `DateCaptured` are nil and
the other three fields agree, the hook returns nil and the store is
untouched. -/
theorem Provider_BeforeCreate_noop_nil (tx : Store) (fresh : Nat) (p : Provider) (row : ProviderRow)
    (hrow : tx.providers.find? (fun r => r.id == p.ID) = some row)
    (hd : p.DateCaptured = none) (hd2 : row.date_captured = none)
    (h1 : row.processor = p.Processor) (h2 : row.input_digest = p.InputDigest)
    (h3 : row.version = p.Version) :
    (Provider.BeforeCreate tx fresh p).err = none ∧ (Provider.BeforeCreate tx fresh p).tx = tx := by
  unfold Provider.BeforeCreate FirstProvider
  rw [hrow]
  simp [Provider.afterFirst, ProviderRow.scan, hd, hd2, h1, h2, h3, ptrEq]

/-- C10: when the lookup by the incoming ID finds a row that differs from the
incoming provider in `Processor`, `DateCaptured`, `InputDigest` or `Version`,
`Provider.BeforeCreate` returns nil, a row with that ID is still stored, and
every stored row with that ID carries the incoming values. -/
theorem Provider_BeforeCreate_overwrite (tx : Store) (fresh : Nat) (p : Provider)
    (row : ProviderRow)
    (hrow : tx.providers.find? (fun r => r.id == p.ID) = some row)
    (halloc : ∀ q, p.DateCaptured = some q → q.addr ≠ fresh)
    (hdiff : row.processor ≠ p.Processor ∨ row.date_captured ≠ p.DateCaptured.map (fun t => t.val) ∨
      row.input_digest ≠ p.InputDigest ∨ row.version ≠ p.Version) :
    (Provider.BeforeCreate tx fresh p).err = none ∧
    (∃ x ∈ (Provider.BeforeCreate tx fresh p).tx.providers, x.id = p.ID) ∧
    (∀ x ∈ (Provider.BeforeCreate tx fresh p).tx.providers, x.id = p.ID →
      x.processor = p.Processor ∧ x.date_captured = p.DateCaptured.map (fun t => t.val) ∧
      x.input_digest = p.InputDigest ∧ x.version = p.Version) := by
  have hid : row.id = p.ID := by
    have := List.find?_some hrow
    simpa using this
  have hmem : row ∈ tx.providers := List.mem_of_find?_eq_some hrow
  have hcond : (row.processor == p.Processor && ptrEq (row.scan fresh).DateCaptured p.DateCaptured &&
      row.input_digest == p.InputDigest && p.Version == row.version) = false := by
    rcases hdiff with h | h | h | h
    · simp [h]
    · have : ptrEq (row.scan fresh).DateCaptured p.DateCaptured = false := by
        cases hr : row.date_captured <;> cases hp : p.DateCaptured <;>
          simp_all [ProviderRow.scan, ptrEq]
        exact fun hc => halloc hc.symm
      simp [this]
    · simp [h]
    · simp [Ne.symm h]
  have hany : tx.providers.any (fun r => r.id == p.ID) = true :=
    List.any_eq_true.2 ⟨row, hmem, by simp [hid]⟩
  unfold Provider.BeforeCreate FirstProvider
  rw [hrow]
  simp only [Provider.afterFirst]
  have hc2 : ((row.scan fresh).Processor == p.Processor &&
      ptrEq (row.scan fresh).DateCaptured p.DateCaptured &&
      (row.scan fresh).InputDigest == p.InputDigest && p.Version == (row.scan fresh).Version) = false :=
    hcond
  rw [hc2]
  simp only [Bool.false_eq_true, if_false, Store.SaveProvider, ProviderRow.scan, hid, hany, if_true]
  refine ⟨by first | rfl | trivial, ?_, ?_⟩
  · refine ⟨Provider.toRow ⟨p.ID, p.Version, p.Processor, p.DateCaptured, p.InputDigest⟩, ?_, rfl⟩
    simp only [List.mem_map]
    exact ⟨row, hmem, by simp [hid]⟩
  · intro x hx hxid
    simp only [List.mem_map] at hx
    obtain ⟨y, _, hy⟩ := hx
    by_cases hyid : y.id = p.ID
    · simp [hyid] at hy
      subst hy
      simp [Provider.toRow]
    · simp [hyid] at hy
      subst hy
      exact absurd hxid hyid

theorem Provider_BeforeCreate_overwrite_witness :
    (Provider.BeforeCreate exStore 1 ⟨"nvd", "2", "vunnel", some ⟨0, 1700000999⟩, "xxh64:2"⟩).err = none ∧
    (Provider.BeforeCreate exStore 1 ⟨"nvd", "2", "vunnel", some ⟨0, 1700000999⟩, "xxh64:2"⟩).tx.providers
      = [⟨"nvd", "2", "vunnel", some 1700000999, "xxh64:2"⟩] :=
  ⟨(Provider_BeforeCreate_overwrite exStore 1 ⟨"nvd", "2", "vunnel", some ⟨0, 1700000999⟩, "xxh64:2"⟩
      ⟨"nvd", "1", "vunnel", some 1700000000, "xxh64:1"⟩ (by decide) (by decide) (by decide)).1,
    by decide⟩


/-! ## `Package.BeforeCreate` -/

theorem FirstCpe_ok {fr : Nat} {tx : Store} {c x : Cpe} (h : FirstCpe fr tx c = .ok x) :
    ∃ row, First CpeRow.id tx.cpes (cpeWhereClause (some c)) = .ok row ∧ x = row.scan fr := by
  unfold FirstCpe at h
  cases hf : First CpeRow.id tx.cpes (cpeWhereClause (some c)) with
  | error e => rw [hf] at h; cases h
  | ok row =>
    rw [hf] at h
    simp only [Except.map] at h
    injection h with h
    exact ⟨row, rfl, h.symm⟩

theorem FirstCpe_error {fr : Nat} {tx : Store} {c : Cpe} {e : Error}
    (h : FirstCpe fr tx c = .error e) : ∀ r ∈ tx.cpes, cpeWhereClause (some c) r = false := by
  unfold FirstCpe at h
  cases hf : First CpeRow.id tx.cpes (cpeWhereClause (some c)) with
  | error e => exact (First_error hf).2
  | ok row => rw [hf] at h; cases h

/-- The lookup does not read `ID` or `PackageID` of the query. -/
theorem cpeWhereClause_attach (c : Cpe) (q : Option (Ptr V6.ID)) :
    cpeWhereClause (some { c with PackageID := q }) = cpeWhereClause (some c) := by
  funext r; simp [cpeWhereClause]

theorem cpeWhereClause_self (c : Cpe) (id : V6.ID) (q : Option V6.ID) :
    cpeWhereClause (some c) { c.toRow id with package_id := q } = true := by
  simp [cpeWhereClause, Cpe.toRow, nocaseEq]

/-- Two rows found by the same query are found by each other's queries. -/
theorem cpeWhereClause_trans (c c0 : Cpe) (id : V6.ID) (q : Option V6.ID) (r : CpeRow)
    (h1 : cpeWhereClause (some c) { c0.toRow id with package_id := q } = true)
    (h2 : cpeWhereClause (some c) r = true) : cpeWhereClause (some c0) r = true := by
  rw [cpeWhereClause_iff] at h1 h2 ⊢
  simp only [Cpe.toRow] at h1
  obtain ⟨a1, a2, a3, a4, a5, a6, a7, a8, a9⟩ := h1
  obtain ⟨b1, b2, b3, b4, b5, b6, b7, b8, b9⟩ := h2
  exact ⟨by rw [b1, a1], by rw [b2, a2], by rw [b3, a3], by rw [b4, a4], by rw [b5, a5],
    by rw [b6, a6], by rw [b7, a7], by rw [b8, a8], by rw [b9, a9]⟩

theorem foldl_max_ge (rows : List CpeRow) (a : V6.ID) :
    a ≤ rows.foldl (fun m r => max m r.id) a ∧
    ∀ r ∈ rows, r.id ≤ rows.foldl (fun m r => max m r.id) a := by
  induction rows generalizing a with
  | nil => simp
  | cons x xs ih =>
    simp only [List.foldl_cons]
    have h := ih (max a x.id)
    refine ⟨le_trans (le_max_left _ _) h.1, fun r hr => ?_⟩
    rcases List.mem_cons.1 hr with hr | hr
    · subst hr; exact le_trans (le_max_right _ _) h.1
    · exact h.2 r hr

theorem nextID_fresh (rows : List CpeRow) : ∀ r ∈ rows, r.id ≠ nextID rows := by
  intro r hr h
  have := (foldl_max_ge rows 0).2 r hr
  unfold nextID at h
  rw [h] at this
  exact absurd this (by simp)

theorem Cpe_BeforeCreate_missing (tx : Store) (fr : Nat) (c : Cpe)
    (h : ∀ r ∈ tx.cpes, cpeWhereClause (some c) r = false) :
    Cpe.BeforeCreate tx fr c = ⟨tx, c, none⟩ := by
  unfold Cpe.BeforeCreate FirstCpe
  rw [First_of_none _ _ _ h]
  rfl

/-- A `Create` of a CPE that the lookup does not find either fails on a
constraint, leaving the store as it was, or appends the row of the CPE. -/
theorem CreateCpe_missing (tx : Store) (fr : Nat) (c : Cpe)
    (h : ∀ r ∈ tx.cpes, cpeWhereClause (some c) r = false) :
    (tx.CreateCpe fr c).tx = tx ∧ (tx.CreateCpe fr c).err = some .constraintFailed ∨
    (tx.CreateCpe fr c).err = none ∧ ∃ id, (∀ r ∈ tx.cpes, r.id ≠ id) ∧
      (tx.CreateCpe fr c).tx = { tx with cpes := tx.cpes ++ [c.toRow id], writes := tx.writes + 1 } := by
  unfold Store.CreateCpe
  rw [Cpe_BeforeCreate_missing tx fr c h]
  simp only
  generalize (if c.ID = 0 then nextID tx.cpes else c.ID) = id
  by_cases hc : (tx.cpes.any (fun r => r.id == id) || tx.cpes.any (idxCpeClash (c.toRow id))) = true
  · left; rw [if_pos hc]; exact ⟨rfl, rfl⟩
  · right
    rw [if_neg hc]
    refine ⟨rfl, id, ?_, rfl⟩
    intro r hr hid
    apply hc
    simp only [Bool.or_eq_true, List.any_eq_true]
    left
    exact ⟨r, hr, by simp [hid]⟩

/-- The unique index does not read `id` or `package_id`. -/
theorem idxCpeClash_toRow (c : Cpe) (id : V6.ID) (r : CpeRow) :
    idxCpeClash (c.toRow id) r = idxCpeClash (c.toRow 0) r := by
  simp [idxCpeClash, Cpe.toRow]

/-- A `Create` of a CPE with a zero `ID` that the lookup does not find and
that collides with no row on the unique index succeeds. -/
theorem CreateCpe_ok (tx : Store) (fr : Nat) (c : Cpe)
    (h : ∀ r ∈ tx.cpes, cpeWhereClause (some c) r = false) (hz : c.ID = 0)
    (hu : ∀ r ∈ tx.cpes, idxCpeClash (c.toRow 0) r = false) :
    (tx.CreateCpe fr c).err = none := by
  unfold Store.CreateCpe
  rw [Cpe_BeforeCreate_missing tx fr c h]
  simp only [hz, if_true]
  have hc : ¬ (tx.cpes.any (fun r => r.id == nextID tx.cpes) ||
      tx.cpes.any (idxCpeClash (c.toRow (nextID tx.cpes)))) = true := by
    simp only [Bool.or_eq_true, List.any_eq_true, not_or, not_exists, not_and]
    constructor
    · intro r hr; simpa using nextID_fresh tx.cpes r hr
    · intro r hr; rw [idxCpeClash_toRow, hu r hr]; simp
  rw [if_neg hc]


/-- One iteration of the CPE loop of `Package.BeforeCreate`: the CPE is found
and accepted, found and in conflict, not found and its creation fails, or not
found and created. -/
theorem mergeCPEs_cons (E : Package) (f i : Nat) (c0 : Cpe) (rest : List Cpe) (tx : Store)
    (p : Package) :
    (∃ row p1, First CpeRow.id tx.cpes (cpeWhereClause (some c0)) = .ok row ∧
      (row.package_id = none ∨ row.package_id = some E.ID) ∧
      Package.mergeCPEs E f i (c0 :: rest) tx p = Package.mergeCPEs E f (i + 1) rest tx p1) ∨
    (∃ row q, First CpeRow.id tx.cpes (cpeWhereClause (some c0)) = .ok row ∧
      row.package_id = some q ∧ q ≠ E.ID ∧
      (Package.mergeCPEs E f i (c0 :: rest) tx p).tx = tx ∧
      (Package.mergeCPEs E f i (c0 :: rest) tx p).err = some .cpeConflict) ∨
    ((∀ r ∈ tx.cpes, cpeWhereClause (some c0) r = false) ∧
      (tx.CreateCpe (f + 1 + i) { c0 with PackageID := some ⟨f, E.ID⟩ }).err
        = some .constraintFailed ∧
      (Package.mergeCPEs E f i (c0 :: rest) tx p).tx = tx ∧
      (Package.mergeCPEs E f i (c0 :: rest) tx p).err
        = some (.createCpeFailed .constraintFailed)) ∨
    ((∀ r ∈ tx.cpes, cpeWhereClause (some c0) r = false) ∧
      ∃ id p1, (∀ r ∈ tx.cpes, r.id ≠ id) ∧
      Package.mergeCPEs E f i (c0 :: rest) tx p =
        Package.mergeCPEs E f (i + 1) rest
          { tx with cpes := tx.cpes ++ [{ c0.toRow id with package_id := some E.ID }],
                    writes := tx.writes + 1 } p1) := by
  cases hF : FirstCpe (f + 1 + i) tx c0 with
  | ok x =>
    obtain ⟨row, hrow, hx⟩ := FirstCpe_ok hF
    cases hp : row.package_id with
    | none =>
      left
      refine ⟨row, { p with CPEs := p.CPEs.set i x }, hrow, Or.inl hp, ?_⟩
      rw [Package.mergeCPEs]
      simp only [hF]
      have : x.PackageID = none := by rw [hx]; simp [CpeRow.scan, hp]
      simp only [this]
    | some q =>
      have hxq : x.PackageID = some ⟨f + 1 + i, q⟩ := by rw [hx]; simp [CpeRow.scan, hp]
      by_cases hq : q = E.ID
      · left
        refine ⟨row, { p with CPEs := p.CPEs.set i x }, hrow, Or.inr (by rw [hp, hq]), ?_⟩
        rw [Package.mergeCPEs]
        simp only [hF, hxq, hq, ne_eq, not_true_eq_false, if_false]
      · right; left
        refine ⟨row, q, hrow, hp, hq, ?_, ?_⟩ <;>
        · rw [Package.mergeCPEs]
          simp only [hF, hxq, ne_eq, hq, not_false_eq_true, if_true]
  | error e =>
    have hmiss := FirstCpe_error hF
    have hmiss1 : ∀ r ∈ tx.cpes,
        cpeWhereClause (some { c0 with PackageID := some ⟨f, E.ID⟩ }) r = false := by
      rw [cpeWhereClause_attach]; exact hmiss
    right; right
    rcases CreateCpe_missing tx (f + 1 + i) _ hmiss1 with ⟨h1, h2⟩ | ⟨h1, id, hid, h2⟩
    · left
      refine ⟨hmiss, h2, ?_, ?_⟩ <;>
      · rw [Package.mergeCPEs]
        simp only [hF, h2, h1]
    · right
      refine ⟨hmiss, id,
        { p with CPEs := p.CPEs.set i { c0 with PackageID := some ⟨f, E.ID⟩ } }, hid, ?_⟩
      rw [Package.mergeCPEs]
      simp only [hF, h1, h2]
      rfl


theorem Extends_refl (cs : List Cpe) (pid : V6.ID) (tx : Store) : Store.Extends cs pid tx tx :=
  ⟨rfl, rfl, rfl, [], by simp, by simp, by simp⟩

theorem Extends_tail {c : Cpe} {cs : List Cpe} {pid : V6.ID} {tx tx1 : Store}
    (h : Store.Extends cs pid tx tx1) : Store.Extends (c :: cs) pid tx tx1 := by
  obtain ⟨h1, h2, h3, added, h4, h5, h6⟩ := h
  refine ⟨h1, h2, h3, added, h4, h5, fun a ha => ?_⟩
  obtain ⟨c1, hc1, e⟩ := h6 a ha
  exact ⟨c1, List.mem_cons_of_mem _ hc1, e⟩

theorem Extends_step {c : Cpe} {cs : List Cpe} {pid id : V6.ID} {tx tx1 : Store}
    (h : Store.Extends cs pid
      { tx with cpes := tx.cpes ++ [{ c.toRow id with package_id := some pid }],
                writes := tx.writes + 1 } tx1) :
    Store.Extends (c :: cs) pid tx tx1 := by
  obtain ⟨h1, h2, h3, added, h4, h5, h6⟩ := h
  refine ⟨h1, h2, h3, { c.toRow id with package_id := some pid } :: added, ?_, ?_, ?_⟩
  · rw [h4]; simp
  · rw [h5]; simp only [List.length_cons]; omega
  · intro a ha
    rcases List.mem_cons.1 ha with ha | ha
    · subst ha
      exact ⟨c, List.mem_cons_self _ _, rfl⟩
    · obtain ⟨c1, hc1, e⟩ := h6 a ha
      exact ⟨c1, List.mem_cons_of_mem _ hc1, e⟩

/-- Rows present before are present after. -/
theorem Extends_mem {cs : List Cpe} {pid : V6.ID} {tx tx1 : Store}
    (h : Store.Extends cs pid tx tx1) {r : CpeRow} (hr : r ∈ tx.cpes) : r ∈ tx1.cpes := by
  obtain ⟨_, _, _, added, h4, _, _⟩ := h
  rw [h4]; exact List.mem_append_left _ hr

/-- The CPE loop only appends rows to `cpes`, each the row of a supplied CPE
attached to the existing package. -/
theorem mergeCPEs_extends (E : Package) (f : Nat) :
    ∀ (rest : List Cpe) (i : Nat) (tx : Store) (p : Package),
      Store.Extends rest E.ID tx (Package.mergeCPEs E f i rest tx p).tx := by
  intro rest
  induction rest with
  | nil => intro i tx p; rw [Package.mergeCPEs]; exact Extends_refl _ _ _
  | cons c0 rest ih =>
    intro i tx p
    rcases mergeCPEs_cons E f i c0 rest tx p with
      ⟨row, p1, _, _, h⟩ | ⟨row, q, _, _, _, h, _⟩ | ⟨_, _, h, _⟩ | ⟨_, id, p1, _, h⟩
    · rw [h]; exact Extends_tail (ih _ _ _)
    · rw [h]; exact Extends_refl _ _ _
    · rw [h]; exact Extends_refl _ _ _
    · rw [h]; exact Extends_step (ih _ _ _)

/-- The sufficient condition for the CPE loop to run through: no supplied CPE
is found under a different package, every supplied CPE has a zero `ID`, and
the unique index agrees with the lookup on the supplied CPEs. -/
theorem mergeCPEs_ok (E : Package) (f : Nat) :
    ∀ (rest : List Cpe) (i : Nat) (tx : Store) (p : Package),
      (∀ c ∈ rest, ∀ r ∈ tx.cpes, cpeWhereClause (some c) r = true →
        r.package_id = none ∨ r.package_id = some E.ID) →
      (∀ c ∈ rest, c.ID = 0) →
      (∀ c ∈ rest, ∀ r ∈ tx.cpes, idxCpeClash (c.toRow 0) r = true →
        cpeWhereClause (some c) r = true) →
      (∀ c ∈ rest, ∀ c1 ∈ rest, idxCpeClash (c.toRow 0) (c1.toRow 0) = true →
        cpeWhereClause (some c) (c1.toRow 0) = true) →
      (Package.mergeCPEs E f i rest tx p).err = none := by
  intro rest
  induction rest with
  | nil => intro i tx p _ _ _ _; rw [Package.mergeCPEs]
  | cons c0 rest ih =>
    intro i tx p H1 H2 H3 H4
    have H1r : ∀ c ∈ rest, ∀ r ∈ tx.cpes, cpeWhereClause (some c) r = true →
        r.package_id = none ∨ r.package_id = some E.ID :=
      fun c hc => H1 c (List.mem_cons_of_mem _ hc)
    have H2r : ∀ c ∈ rest, c.ID = 0 := fun c hc => H2 c (List.mem_cons_of_mem _ hc)
    have H3r : ∀ c ∈ rest, ∀ r ∈ tx.cpes, idxCpeClash (c.toRow 0) r = true →
        cpeWhereClause (some c) r = true := fun c hc => H3 c (List.mem_cons_of_mem _ hc)
    have H4r : ∀ c ∈ rest, ∀ c1 ∈ rest, idxCpeClash (c.toRow 0) (c1.toRow 0) = true →
        cpeWhereClause (some c) (c1.toRow 0) = true :=
      fun c hc c1 hc1 => H4 c (List.mem_cons_of_mem _ hc) c1 (List.mem_cons_of_mem _ hc1)
    rcases mergeCPEs_cons E f i c0 rest tx p with
      ⟨row, p1, _, _, h⟩ | ⟨row, q, hrow, hq, hne, _, _⟩ | ⟨hmiss, hfail, _, _⟩ |
      ⟨hmiss, id, p1, _, h⟩
    · rw [h]; exact ih _ _ _ H1r H2r H3r H4r
    · have hm := First_ok_mem hrow
      rcases H1 c0 (List.mem_cons_self _ _) row hm.1 hm.2 with h | h
      · rw [hq] at h; cases h
      · rw [hq] at h; injection h with h; exact absurd h hne
    · have hok := CreateCpe_ok tx (f + 1 + i) { c0 with PackageID := some ⟨f, E.ID⟩ }
        (by rw [cpeWhereClause_attach]; exact hmiss) (H2 c0 (List.mem_cons_self _ _))
        (by
          intro r hr
          cases hcl : idxCpeClash (Cpe.toRow { c0 with PackageID := some ⟨f, E.ID⟩ } 0) r
          · rfl
          · have : idxCpeClash (c0.toRow 0) r = true := by
              simpa [idxCpeClash, Cpe.toRow] using hcl
            have h3 := H3 c0 (List.mem_cons_self _ _) r hr this
            rw [hmiss r hr] at h3
            cases h3)
      rw [hok] at hfail; cases hfail
    · rw [h]
      apply ih
      · intro c hc r hr hm
        rcases List.mem_append.1 hr with hr | hr
        · exact H1r c hc r hr hm
        · simp only [List.mem_singleton] at hr
          subst hr; right; rfl
      · exact H2r
      · intro c hc r hr hcl
        rcases List.mem_append.1 hr with hr | hr
        · exact H3r c hc r hr hcl
        · simp only [List.mem_singleton] at hr
          subst hr
          have h1 : idxCpeClash (c.toRow 0) (c0.toRow 0) = true := by
            simpa [idxCpeClash, Cpe.toRow] using hcl
          have h2 := H4 c (List.mem_cons_of_mem _ hc) c0 (List.mem_cons_self _ _) h1
          simpa [cpeWhereClause, Cpe.toRow] using h2
      · exact H4r


/-- When the package lookup finds row `e`, the hook runs the CPE loop against
the scanned row; store and error are those of the loop, and on success the
receiver is the scanned row. -/
theorem Package_BeforeCreate_found (tx : Store) (self fresh : Nat) (p : Package) (e : PackageRow)
    (hfound : First PackageRow.id tx.packages (packageWhere p.Ecosystem p.Name) = .ok e) :
    (Package.BeforeCreate tx self fresh p).tx = (Package.mergeCPEs e.scan fresh 0 p.CPEs tx p).tx ∧
    (Package.BeforeCreate tx self fresh p).err = (Package.mergeCPEs e.scan fresh 0 p.CPEs tx p).err ∧
    ((Package.mergeCPEs e.scan fresh 0 p.CPEs tx p).err = none →
      (Package.BeforeCreate tx self fresh p).recv = e.scan) := by
  unfold Package.BeforeCreate FirstPackage
  rw [hfound]
  simp only [Except.map, Package.afterFirst]
  cases h : (Package.mergeCPEs e.scan fresh 0 p.CPEs tx p).err with
  | none => simp
  | some x => simp

/-- A condition on the input under which no CPE creation fails: no supplied
CPE is found under another package, every supplied CPE has a zero `ID`, and the
unique index of `cpes` agrees with the lookup on the supplied CPEs.  Then the
hook returns nil with the scanned row as receiver and only appends CPE rows. -/
theorem Package_BeforeCreate_ok_aux (tx : Store) (self fresh : Nat) (p : Package) (e : PackageRow)
    (hfound : First PackageRow.id tx.packages (packageWhere p.Ecosystem p.Name) = .ok e)
    (hnoconf : ∀ c ∈ p.CPEs, ∀ r ∈ tx.cpes, cpeWhereClause (some c) r = true →
      r.package_id = none ∨ r.package_id = some e.id)
    (hzero : ∀ c ∈ p.CPEs, c.ID = 0)
    (hidx : ∀ c ∈ p.CPEs, ∀ r ∈ tx.cpes, idxCpeClash (c.toRow 0) r = true →
      cpeWhereClause (some c) r = true)
    (hidx2 : ∀ c ∈ p.CPEs, ∀ c1 ∈ p.CPEs, idxCpeClash (c.toRow 0) (c1.toRow 0) = true →
      cpeWhereClause (some c) (c1.toRow 0) = true) :
    (Package.BeforeCreate tx self fresh p).err = none ∧
    (Package.BeforeCreate tx self fresh p).recv = e.scan ∧
    Store.Extends p.CPEs e.id tx (Package.BeforeCreate tx self fresh p).tx := by
  obtain ⟨h1, h2, h3⟩ := Package_BeforeCreate_found tx self fresh p e hfound
  have hok := mergeCPEs_ok e.scan fresh p.CPEs 0 tx p hnoconf hzero hidx hidx2
  refine ⟨by rw [h2, hok], h3 hok, ?_⟩
  rw [h1]
  exact mergeCPEs_extends e.scan fresh p.CPEs 0 tx p

/-- A CPE found under another package makes the loop fail, whatever the other
supplied CPEs are. -/
theorem mergeCPEs_conflict (E : Package) (f : Nat) (c : Cpe) (row : CpeRow) (q : V6.ID)
    (hq : row.package_id = some q) (hne : q ≠ E.ID) :
    ∀ (rest : List Cpe) (i : Nat) (tx : Store) (p : Package), c ∈ rest →
      First CpeRow.id tx.cpes (cpeWhereClause (some c)) = .ok row →
      (Package.mergeCPEs E f i rest tx p).err ≠ none := by
  intro rest
  induction rest with
  | nil => intro i tx p hc; cases hc
  | cons c0 rest ih =>
    intro i tx p hc hrow
    have hm := First_ok_mem hrow
    rcases mergeCPEs_cons E f i c0 rest tx p with
      ⟨row0, p1, hrow0, hacc, h⟩ | ⟨_, _, _, _, _, _, h⟩ | ⟨_, _, _, h⟩ | ⟨hmiss, id, p1, _, h⟩
    · rcases List.mem_cons.1 hc with hc | hc
      · subst hc
        rw [hrow] at hrow0
        injection hrow0 with hrow0
        subst hrow0
        rcases hacc with h0 | h0
        · rw [hq] at h0; cases h0
        · rw [hq] at h0; injection h0 with h0; exact absurd h0 hne
      · rw [h]; exact ih _ _ _ hc hrow
    · rw [h]; simp
    · rw [h]; simp
    · rcases List.mem_cons.1 hc with hc | hc
      · subst hc
        have := hmiss row hm.1
        rw [hm.2] at this; cases this
      · rw [h]
        apply ih _ _ _ hc
        have hnew : cpeWhereClause (some c) { c0.toRow id with package_id := some E.ID } = false := by
          cases hcl : cpeWhereClause (some c) { c0.toRow id with package_id := some E.ID }
          · rfl
          · have := cpeWhereClause_trans c c0 id (some E.ID) row hcl hm.2
            rw [hmiss row hm.1] at this; cases this
        rw [← hrow]
        apply First_congr
        simp [List.filter_append, List.filter_cons, hnew]

/-- C4: when the package lookup finds row `e` and the lookup of some supplied
CPE finds a row owned by a package other than `e`, `Package.BeforeCreate`
returns a non-nil error and that row is still stored as it was. -/
theorem Package_BeforeCreate_conflict (tx : Store) (self fresh : Nat) (p : Package)
    (e : PackageRow) (c : Cpe) (row : CpeRow) (q : V6.ID)
    (hfound : First PackageRow.id tx.packages (packageWhere p.Ecosystem p.Name) = .ok e)
    (hc : c ∈ p.CPEs)
    (hrow : First CpeRow.id tx.cpes (cpeWhereClause (some c)) = .ok row)
    (hq : row.package_id = some q) (hne : q ≠ e.id) :
    (Package.BeforeCreate tx self fresh p).err ≠ none ∧
    row ∈ (Package.BeforeCreate tx self fresh p).tx.cpes := by
  obtain ⟨h1, h2, _⟩ := Package_BeforeCreate_found tx self fresh p e hfound
  constructor
  · rw [h2]
    exact mergeCPEs_conflict e.scan fresh c row q hq hne p.CPEs 0 tx p hc hrow
  · rw [h1]
    exact Extends_mem (mergeCPEs_extends e.scan fresh p.CPEs 0 tx p) (First_ok_mem hrow).1

theorem Package_BeforeCreate_conflict_witness :
    (Package.BeforeCreate
      { exStore with packages := exStore.packages ++ [⟨6, "npm", "right-pad"⟩] } 100 101
      ⟨0, "npm", "right-pad", [{ exCpe with Product := "right-pad" }, exCpe]⟩).err ≠ none :=
  (Package_BeforeCreate_conflict
    { exStore with packages := exStore.packages ++ [⟨6, "npm", "right-pad"⟩] } 100 101
    ⟨0, "npm", "right-pad", [{ exCpe with Product := "right-pad" }, exCpe]⟩
    ⟨6, "npm", "right-pad"⟩ exCpe exCpeRow 5 (by decide) (by decide) (by decide) (by decide)
    (by decide)).1

/-- After a successful run of the loop every supplied CPE has a stored row
owned by the existing package. -/
theorem mergeCPEs_creates (E : Package) (f : Nat) :
    ∀ (rest : List Cpe) (i : Nat) (tx : Store) (p : Package),
      (Package.mergeCPEs E f i rest tx p).err = none →
      ∀ c ∈ rest, (∀ r ∈ tx.cpes, cpeWhereClause (some c) r = true → r.package_id = some E.ID) →
        ∃ row ∈ (Package.mergeCPEs E f i rest tx p).tx.cpes,
          cpeWhereClause (some c) row = true ∧ row.package_id = some E.ID := by
  intro rest
  induction rest with
  | nil => intro i tx p _ c hc; cases hc
  | cons c0 rest ih =>
    intro i tx p hok c hc hown
    rcases mergeCPEs_cons E f i c0 rest tx p with
      ⟨row0, p1, hrow0, _, h⟩ | ⟨_, _, _, _, _, _, h⟩ | ⟨_, _, _, h⟩ | ⟨hmiss, id, p1, _, h⟩
    · rw [h] at hok ⊢
      rcases List.mem_cons.1 hc with hc | hc
      · subst hc
        have hm := First_ok_mem hrow0
        exact ⟨row0, Extends_mem (mergeCPEs_extends E f rest (i + 1) tx p1) hm.1, hm.2,
          hown row0 hm.1 hm.2⟩
      · exact ih _ _ _ hok c hc hown
    · rw [h] at hok; cases hok
    · rw [h] at hok; cases hok
    · rw [h] at hok ⊢
      rcases List.mem_cons.1 hc with hc | hc
      · subst hc
        refine ⟨{ c.toRow id with package_id := some E.ID },
          Extends_mem (mergeCPEs_extends E f rest (i + 1) _ p1) ?_,
          cpeWhereClause_self c id (some E.ID), rfl⟩
        simp
      · apply ih _ _ _ hok c hc
        intro r hr hm
        rcases List.mem_append.1 hr with hr | hr
        · exact hown r hr hm
        · simp only [List.mem_singleton] at hr
          subst hr; rfl

/-- C6 (the code at the failing input): package 5 exists and the call supplies
one CPE that is not stored yet; the call succeeds, the CPE is created and
attached to package 5, and the receiver is the scanned package row, whose
`CPEs` list is empty. -/
theorem Package_BeforeCreate_drops_CPEs :
    (Package.BeforeCreate exStore 100 101
      ⟨0, "NPM", "Left-Pad", [{ exCpe with Product := "left-pad" }]⟩).err = none ∧
    (Package.BeforeCreate exStore 100 101
      ⟨0, "NPM", "Left-Pad", [{ exCpe with Product := "left-pad" }]⟩).tx.cpes
      = exStore.cpes ++
        [{ Cpe.toRow { exCpe with Product := "left-pad" } 2 with package_id := some 5 }] ∧
    (Package.BeforeCreate exStore 100 101
      ⟨0, "NPM", "Left-Pad", [{ exCpe with Product := "left-pad" }]⟩).recv
      = ⟨5, "npm", "left-pad", []⟩ := by
  decide


/-! ## The provider table -/

/-- C11: `Provider.BeforeCreate` maps the provider table row by row: the table
after the call is the table before with some rows replaced in place, every
replacement keeps the ID of the row it replaces, and rows whose ID is not the
incoming one are kept as they are; so the list of stored IDs is the same and a
table with one row per ID still has one row per ID.  The other tables are
untouched. -/
theorem Provider_BeforeCreate_frame (tx : Store) (fresh : Nat) (p : Provider) :
    (∃ g : ProviderRow → ProviderRow, (∀ x, (g x).id = x.id) ∧ (∀ x, x.id ≠ p.ID → g x = x) ∧
      (Provider.BeforeCreate tx fresh p).tx.providers = tx.providers.map g) ∧
    (Provider.BeforeCreate tx fresh p).tx.providers.map (fun x => x.id)
      = tx.providers.map (fun x => x.id) ∧
    ((tx.providers.map (fun x => x.id)).Nodup →
      ((Provider.BeforeCreate tx fresh p).tx.providers.map (fun x => x.id)).Nodup) ∧
    (Provider.BeforeCreate tx fresh p).tx.packages = tx.packages ∧
    (Provider.BeforeCreate tx fresh p).tx.operating_systems = tx.operating_systems ∧
    (Provider.BeforeCreate tx fresh p).tx.cpes = tx.cpes := by
  have key : ∃ g : ProviderRow → ProviderRow, (∀ x, (g x).id = x.id) ∧
      (∀ x, x.id ≠ p.ID → g x = x) ∧
      (Provider.BeforeCreate tx fresh p).tx.providers = tx.providers.map g ∧
      (Provider.BeforeCreate tx fresh p).tx.packages = tx.packages ∧
      (Provider.BeforeCreate tx fresh p).tx.operating_systems = tx.operating_systems ∧
      (Provider.BeforeCreate tx fresh p).tx.cpes = tx.cpes := by
    unfold Provider.BeforeCreate FirstProvider
    cases hrow : tx.providers.find? (fun r => r.id == p.ID) with
    | none =>
      exact ⟨fun x => x, fun _ => rfl, fun _ _ => rfl, by simp [Provider.afterFirst], rfl, rfl, rfl⟩
    | some row =>
      have hid : row.id = p.ID := by
        have := List.find?_some hrow
        simpa using this
      have hmem : row ∈ tx.providers := List.mem_of_find?_eq_some hrow
      have hany : tx.providers.any (fun r => r.id == p.ID) = true :=
        List.any_eq_true.2 ⟨row, hmem, by simp [hid]⟩
      simp only [Provider.afterFirst]
      split
      · exact ⟨fun x => x, fun _ => rfl, fun _ _ => rfl, by simp, rfl, rfl, rfl⟩
      · refine ⟨fun x => if x.id == p.ID then
            Provider.toRow ⟨p.ID, p.Version, p.Processor, p.DateCaptured, p.InputDigest⟩ else x,
          ?_, ?_, ?_, ?_, ?_, ?_⟩
        · intro x
          by_cases hx : x.id = p.ID
          · simp [hx, Provider.toRow]
          · simp [hx]
        · intro x hx; simp [hx]
        all_goals simp [Store.SaveProvider, ProviderRow.scan, hid, hany]
  obtain ⟨g, g1, g2, g3, g4, g5, g6⟩ := key
  have hids : (Provider.BeforeCreate tx fresh p).tx.providers.map (fun x => x.id)
      = tx.providers.map (fun x => x.id) := by
    rw [g3, List.map_map]
    apply List.map_congr_left
    intro x _
    exact g1 x
  exact ⟨⟨g, g1, g2, g3⟩, hids, fun h => by rw [hids]; exact h, g4, g5, g6⟩

/-! ## Lookup errors -/

/-- C12 (the code at the failing input): when the lookup fails with a storage
error that is not `ErrRecordNotFound`, each of the four hooks takes the branch
written for a missing row and returns nil, leaving store and receiver as they
were (`Package` with the `PackageID` of its CPEs set). -/
theorem BeforeCreate_swallows_lookup_error (tx : Store) (msg : String) :
    (∀ p : Provider, Provider.afterFirst tx p (.error (.storage msg)) = ⟨tx, p, none⟩) ∧
    (∀ (self fresh : Nat) (p : Package),
      (Package.afterFirst tx self fresh p (.error (.storage msg))).err = none ∧
      (Package.afterFirst tx self fresh p (.error (.storage msg))).tx = tx) ∧
    (∀ os : OperatingSystem, OperatingSystem.afterFirst tx os (.error (.storage msg))
      = ⟨tx, os, none⟩) ∧
    (∀ c : Cpe, Cpe.afterFirst tx c (.error (.storage msg)) = ⟨tx, c, none⟩) :=
  ⟨fun _ => rfl, fun _ _ _ => ⟨rfl, rfl⟩, fun _ => rfl, fun _ => rfl⟩

/-! ## `OperatingSystem.Version` and `VersionNumber` -/

/-- C13: for a non-nil operating system `Version()` is `LabelVersion` when that
is not empty; else `MajorVersion.MinorVersion` when both are not empty; else
`MajorVersion` when it is not empty; else `Codename`; it is empty when all four
are. -/
theorem OperatingSystem_Version_spec (os : OperatingSystem) :
    (os.LabelVersion ≠ "" → OperatingSystem.Version (some os) = os.LabelVersion) ∧
    (os.LabelVersion = "" → os.MajorVersion ≠ "" → os.MinorVersion ≠ "" →
      OperatingSystem.Version (some os) = os.MajorVersion ++ "." ++ os.MinorVersion) ∧
    (os.LabelVersion = "" → os.MajorVersion ≠ "" → os.MinorVersion = "" →
      OperatingSystem.Version (some os) = os.MajorVersion) ∧
    (os.LabelVersion = "" → os.MajorVersion = "" →
      OperatingSystem.Version (some os) = os.Codename) ∧
    (os.LabelVersion = "" → os.MajorVersion = "" → os.MinorVersion = "" → os.Codename = "" →
      OperatingSystem.Version (some os) = "") := by
  refine ⟨?_, ?_, ?_, ?_, ?_⟩
  · intro h; simp [OperatingSystem.Version, h]
  · intro h1 h2 h3; simp [OperatingSystem.Version, h1, h2, h3]
  · intro h1 h2 h3; simp [OperatingSystem.Version, h1, h2, h3]
  · intro h1 h2; simp [OperatingSystem.Version, h1, h2]
  · intro h1 h2 _ h4; simp [OperatingSystem.Version, h1, h2, h4]

theorem OperatingSystem_Version_spec_witness :
    OperatingSystem.Version (some ⟨1, "debian", "debian", "10", "1", "unstable", "sid"⟩) = "unstable" ∧
    OperatingSystem.Version (some ⟨1, "debian", "debian", "10", "1", "", "buster"⟩) = "10.1" ∧
    OperatingSystem.Version (some ⟨1, "debian", "debian", "10", "", "", "buster"⟩) = "10" ∧
    OperatingSystem.Version (some ⟨1, "debian", "debian", "", "7", "", "buster"⟩) = "buster" ∧
    OperatingSystem.Version (some ⟨1, "debian", "debian", "", "", "", ""⟩) = "" :=
  ⟨(OperatingSystem_Version_spec ⟨1, "debian", "debian", "10", "1", "unstable", "sid"⟩).1
      (by decide),
   (OperatingSystem_Version_spec ⟨1, "debian", "debian", "10", "1", "", "buster"⟩).2.1
      (by decide) (by decide) (by decide),
   (OperatingSystem_Version_spec ⟨1, "debian", "debian", "10", "", "", "buster"⟩).2.2.1
      (by decide) (by decide) (by decide),
   (OperatingSystem_Version_spec ⟨1, "debian", "debian", "", "7", "", "buster"⟩).2.2.2.1
      (by decide) (by decide),
   (OperatingSystem_Version_spec ⟨1, "debian", "debian", "", "", "", ""⟩).2.2.2.2
      (by decide) (by decide) (by decide) (by decide)⟩

/-- C14: for a non-nil operating system `VersionNumber()` is `MajorVersion` when
`MinorVersion` is empty and `MajorVersion.MinorVersion` otherwise; two records
with the same `MajorVersion` and `MinorVersion` have the same
`VersionNumber()`, whatever their other fields. -/
theorem OperatingSystem_VersionNumber_spec (os : OperatingSystem) :
    (os.MinorVersion = "" → OperatingSystem.VersionNumber (some os) = os.MajorVersion) ∧
    (os.MinorVersion ≠ "" →
      OperatingSystem.VersionNumber (some os) = os.MajorVersion ++ "." ++ os.MinorVersion) ∧
    (∀ (id : V6.ID) (name releaseID label codename : String),
      OperatingSystem.VersionNumber
          (some { os with ID := id, Name := name, ReleaseID := releaseID,
                          LabelVersion := label, Codename := codename })
        = OperatingSystem.VersionNumber (some os)) := by
  refine ⟨?_, ?_, ?_⟩
  · intro h; simp [OperatingSystem.VersionNumber, h]
  · intro h; simp [OperatingSystem.VersionNumber, h]
  · intro id name releaseID label codename; rfl

theorem OperatingSystem_VersionNumber_spec_witness :
    OperatingSystem.VersionNumber (some ⟨1, "debian", "debian", "10", "", "unstable", "sid"⟩) = "10" ∧
    OperatingSystem.VersionNumber (some ⟨1, "debian", "debian", "10", "1", "unstable", "sid"⟩)
      = "10.1" :=
  ⟨(OperatingSystem_VersionNumber_spec ⟨1, "debian", "debian", "10", "", "unstable", "sid"⟩).1
      (by decide),
   (OperatingSystem_VersionNumber_spec ⟨1, "debian", "debian", "10", "1", "unstable", "sid"⟩).2.1
      (by decide)⟩

/-! ## `OperatingSystemSpecifierOverride.BeforeCreate` -/

/-- C15: `OperatingSystemSpecifierOverride.BeforeCreate` returns an error exactly
when `Version` and `VersionPattern` are both non-empty, returns nil for every
other record, and leaves record and store as they were. -/
theorem OperatingSystemSpecifierOverride_BeforeCreate_spec (tx : Store)
    (os : OperatingSystemSpecifierOverride) :
    ((OperatingSystemSpecifierOverride.BeforeCreate tx os).err ≠ none ↔
      (os.Version ≠ "" ∧ os.VersionPattern ≠ "")) ∧
    ((os.Version = "" ∨ os.VersionPattern = "") →
      (OperatingSystemSpecifierOverride.BeforeCreate tx os).err = none) ∧
    (OperatingSystemSpecifierOverride.BeforeCreate tx os).recv = os ∧
    (OperatingSystemSpecifierOverride.BeforeCreate tx os).tx = tx := by
  unfold OperatingSystemSpecifierOverride.BeforeCreate
  by_cases h : os.Version ≠ "" ∧ os.VersionPattern ≠ ""
  · rw [if_pos h]
    refine ⟨⟨fun _ => h, fun _ => by simp⟩, ?_, rfl, rfl⟩
    rintro (h1 | h1)
    · exact absurd h1 h.1
    · exact absurd h1 h.2
  · rw [if_neg h]
    exact ⟨⟨fun h1 => absurd rfl h1, fun h1 => absurd h1 h⟩, fun _ => rfl, rfl, rfl⟩

theorem OperatingSystemSpecifierOverride_BeforeCreate_spec_witness :
    (OperatingSystemSpecifierOverride.BeforeCreate exStore
      ⟨"centos", "8", "8.*", "", none, none, none, none, false⟩).err ≠ none ∧
    (OperatingSystemSpecifierOverride.BeforeCreate exStore
      ⟨"centos", "8", "", "", none, none, none, none, false⟩).err = none :=
  ⟨(OperatingSystemSpecifierOverride_BeforeCreate_spec exStore
      ⟨"centos", "8", "8.*", "", none, none, none, none, false⟩).1.2 (by decide),
   (OperatingSystemSpecifierOverride_BeforeCreate_spec exStore
      ⟨"centos", "8", "", "", none, none, none, none, false⟩).2.1 (by decide)⟩


/-! ## `Cpe.String` -/

/-- C16: `String()` is `cpe:2.3` followed by the nine descriptive fields in
their order, each preceded by `:` and written as `*` when empty; `ID` and
`PackageID` do not enter. -/
theorem Cpe_String_spec (c : Cpe) :
    c.String = "cpe:2.3" ++ (":" ++ wildcard c.Part) ++ (":" ++ wildcard c.Vendor) ++
      (":" ++ wildcard c.Product) ++ (":" ++ wildcard c.Edition) ++
      (":" ++ wildcard c.Language) ++ (":" ++ wildcard c.SoftwareEdition) ++
      (":" ++ wildcard c.TargetHardware) ++ (":" ++ wildcard c.TargetSoftware) ++
      (":" ++ wildcard c.Other) ∧
    ∀ (id : V6.ID) (pid : Option (Ptr V6.ID)),
      Cpe.String { c with ID := id, PackageID := pid } = c.String := by
  constructor
  · have h0 : ("cpe:2.3" == "") = false := by decide
    simp only [Cpe.String, List.map, h0, Join, wildcard, beq_iff_eq, String.append_assoc]
    simp
  · intro id pid; rfl

theorem Join_data (parts : List String) :
    (Join parts ":").data = [':'].intercalate (parts.map String.data) := by
  induction parts with
  | nil => rfl
  | cons a rest ih =>
    cases rest with
    | nil => simp [Join, List.intercalate]
    | cons b rest =>
      have hc : (":" : String).data = [':'] := rfl
      rw [Join, String.data_append, String.data_append, ih, hc]
      simp [List.intercalate, List.intersperse]

/-- C17: when no descriptive field contains `:`, splitting `String()` on `:`
gives the eleven components `cpe`, `2.3` and the nine fields in their order,
an empty field reading back as `*`. -/
theorem Cpe_String_split (c : Cpe) (h : ∀ f ∈ cpeFields c, ':' ∉ f.data) :
    Split c.String ':' = "cpe" :: "2.3" :: (cpeFields c).map wildcard ∧
    (Split c.String ':').length = 11 := by
  have hw : ∀ f : String, (if (f == "") = true then "*" else f) = wildcard f := by
    intro f; simp [wildcard]
  have hdata : c.String.data =
      [':'].intercalate (("cpe" :: "2.3" :: (cpeFields c).map wildcard).map String.data) := by
    have h0 : ("cpe:2.3" == "") = false := by decide
    unfold Cpe.String
    rw [Join_data]
    simp only [List.map, h0, hw, cpeFields]
    simp [List.intercalate, List.intersperse]
  have hsplit : Split c.String ':' = "cpe" :: "2.3" :: (cpeFields c).map wildcard := by
    unfold Split
    rw [hdata, List.splitOn_intercalate]
    · rw [List.map_map]
      have : (String.mk ∘ String.data) = id := by funext x; rfl
      rw [this, List.map_id]
    · intro l hl
      simp only [List.map_cons, List.mem_cons, List.mem_map] at hl
      rcases hl with hl | hl | ⟨x, ⟨f, hf, hx⟩, hl⟩
      · subst hl; decide
      · subst hl; decide
      · subst hl; subst hx
        unfold wildcard
        split
        · decide
        · exact h f hf
    · simp
  exact ⟨hsplit, by rw [hsplit]; simp [cpeFields]⟩

theorem Cpe_String_split_witness :
    Split exCpe.String ':' = ["cpe", "2.3", "a", "apache", "tomcat", "*", "*", "*", "*", "*", "*"] :=
  (Cpe_String_split exCpe (by decide)).1


/-! ## `Blob.computeDigest` -/

/-- C18: the digest of a blob is a function of its `Value` alone: blobs with
equal values have equal digests whatever their IDs (for every hash function
`xxh64`); and with `put` as the spec describes it, storing a value a second
time returns the BlobID of the first time and leaves the store as the first
call left it. -/
theorem Blob_computeDigest_content (xxh64 : String → Nat) :
    (∀ b1 b2 : Blob, b1.Value = b2.Value →
      Blob.computeDigest xxh64 b1 = Blob.computeDigest xxh64 b2) ∧
    (∀ (s : BlobStore) (value : String),
      ((s.put xxh64 value).1.put xxh64 value).2 = (s.put xxh64 value).2 ∧
      ((s.put xxh64 value).1.put xxh64 value).1 = (s.put xxh64 value).1) := by
  refine ⟨?_, ?_⟩
  · intro b1 b2 h
    unfold Blob.computeDigest
    rw [h]
  · intro s value
    cases hf : s.digests.find?
        (fun d => d.ID == Blob.computeDigest xxh64 { ID := 0, Value := value }) with
    | some d =>
      have h1 : s.put xxh64 value = (s, d.BlobID) := by
        simp only [BlobStore.put, hf]
      rw [h1]
      simp only [h1]
      exact ⟨trivial, trivial⟩
    | none =>
      have h1 : s.put xxh64 value =
          ({ blobs := s.blobs ++ [⟨s.blobs.foldl (fun m b => max m b.ID) 0 + 1, value⟩],
             digests := s.digests ++
               [{ ID := Blob.computeDigest xxh64 { ID := 0, Value := value },
                  BlobID := s.blobs.foldl (fun m b => max m b.ID) 0 + 1,
                  Blob := ⟨s.blobs.foldl (fun m b => max m b.ID) 0 + 1, value⟩ }] },
           s.blobs.foldl (fun m b => max m b.ID) 0 + 1) := by
        simp only [BlobStore.put, hf]
      rw [h1]
      simp only [BlobStore.put, List.find?_append, hf]
      simp


theorem Blob_computeDigest_content_witness :
    Blob.computeDigest (fun v => v.length) ⟨1, "payload"⟩
      = Blob.computeDigest (fun v => v.length) ⟨2, "payload"⟩ ∧
    ((BlobStore.put (fun v => v.length) ⟨[], []⟩ "payload").1.put (fun v => v.length) "payload").2
      = 1 :=
  ⟨(Blob_computeDigest_content (fun v => v.length)).1 ⟨1, "payload"⟩ ⟨2, "payload"⟩ rfl,
   ((Blob_computeDigest_content (fun v => v.length)).2 ⟨[], []⟩ "payload").1.trans (by decide)⟩

theorem Provider_BeforeCreate_frame_witness :
    ((Provider.BeforeCreate exStore 1 ⟨"nvd", "2", "vunnel", none, "xxh64:2"⟩).tx.providers.map
      (fun x => x.id)).Nodup :=
  (Provider_BeforeCreate_frame exStore 1 ⟨"nvd", "2", "vunnel", none, "xxh64:2"⟩).2.2.1
    (by decide)

/-! ## The frame of `Package.BeforeCreate` -/

/-- C19: whatever `Package.BeforeCreate` returns, the tables `providers`,
`packages` and `operating_systems` are as before and the table `cpes` is the
table before the call followed by new rows, one per write executed: no row
that existed is changed or removed. -/
theorem Package_BeforeCreate_frame (tx : Store) (self fresh : Nat) (p : Package) :
    (Package.BeforeCreate tx self fresh p).tx.providers = tx.providers ∧
    (Package.BeforeCreate tx self fresh p).tx.packages = tx.packages ∧
    (Package.BeforeCreate tx self fresh p).tx.operating_systems = tx.operating_systems ∧
    ∃ added : List CpeRow,
      (Package.BeforeCreate tx self fresh p).tx.cpes = tx.cpes ++ added ∧
      (Package.BeforeCreate tx self fresh p).tx.writes = tx.writes + added.length ∧
      ∀ r ∈ tx.cpes, r ∈ (Package.BeforeCreate tx self fresh p).tx.cpes := by
  cases hf : First PackageRow.id tx.packages (packageWhere p.Ecosystem p.Name) with
  | error x =>
    have h : Package.BeforeCreate tx self fresh p =
        ⟨tx, { p with CPEs := p.CPEs.map (fun c => { c with PackageID := some ⟨self, p.ID⟩ }) },
          none⟩ := by
      unfold Package.BeforeCreate FirstPackage
      rw [hf]; rfl
    rw [h]
    exact ⟨rfl, rfl, rfl, [], by simp, by simp, fun r hr => hr⟩
  | ok e =>
    obtain ⟨h1, _, _⟩ := Package_BeforeCreate_found tx self fresh p e hf
    obtain ⟨g1, g2, g3, added, g4, g5, _⟩ := mergeCPEs_extends e.scan fresh p.CPEs 0 tx p
    rw [h1]
    exact ⟨g1, g2, g3, added, g4, g5, fun r hr => by rw [g4]; exact List.mem_append_left _ hr⟩

theorem Package_BeforeCreate_frame_witness :
    exCpeRow ∈ (Package.BeforeCreate exStore 100 101
      ⟨0, "NPM", "Left-Pad", [{ exCpe with Product := "left-pad" }]⟩).tx.cpes :=
  (Package_BeforeCreate_frame exStore 100 101
    ⟨0, "NPM", "Left-Pad", [{ exCpe with Product := "left-pad" }]⟩).2.2.2.elim
    fun _ h => h.2.2 exCpeRow (by decide)

/-- C20 (counterexample): package 6 exists, the first supplied CPE is new and
the second is stored under package 5; the hook returns the conflict error and
the row it created for the first CPE is in the store it leaves. -/
theorem Package_BeforeCreate_conflict_leaves_row :
    (Package.BeforeCreate
      { exStore with packages := exStore.packages ++ [⟨6, "npm", "right-pad"⟩] } 100 101
      ⟨0, "npm", "right-pad", [{ exCpe with Product := "right-pad" }, exCpe]⟩).err
      = some .cpeConflict ∧
    (Package.BeforeCreate
      { exStore with packages := exStore.packages ++ [⟨6, "npm", "right-pad"⟩] } 100 101
      ⟨0, "npm", "right-pad", [{ exCpe with Product := "right-pad" }, exCpe]⟩).tx.cpes
      = exStore.cpes ++
        [{ Cpe.toRow { exCpe with Product := "right-pad" } 2 with package_id := some 6 }] ∧
    (Package.BeforeCreate
      { exStore with packages := exStore.packages ++ [⟨6, "npm", "right-pad"⟩] } 100 101
      ⟨0, "npm", "right-pad", [{ exCpe with Product := "right-pad" }, exCpe]⟩).tx
      ≠ { exStore with packages := exStore.packages ++ [⟨6, "npm", "right-pad"⟩] } := by
  decide

/-! ## `Package.BeforeCreate` without a stored package -/

/-- C21: when no stored package has the incoming ecosystem and name (ignoring
letter case), `Package.BeforeCreate` returns nil, leaves the store as it was
and the receiver's `ID`, `Ecosystem` and `Name` unchanged, and turns every
supplied CPE into the same CPE with `PackageID` pointing to the receiver's own
`ID` field. -/
theorem Package_BeforeCreate_missing (tx : Store) (self fresh : Nat) (p : Package)
    (hmiss : ∀ r ∈ tx.packages, packageWhere p.Ecosystem p.Name r = false) :
    (Package.BeforeCreate tx self fresh p).err = none ∧
    (Package.BeforeCreate tx self fresh p).tx = tx ∧
    (Package.BeforeCreate tx self fresh p).recv.ID = p.ID ∧
    (Package.BeforeCreate tx self fresh p).recv.Ecosystem = p.Ecosystem ∧
    (Package.BeforeCreate tx self fresh p).recv.Name = p.Name ∧
    (Package.BeforeCreate tx self fresh p).recv.CPEs
      = p.CPEs.map (fun c => { c with PackageID := some ⟨self, p.ID⟩ }) ∧
    (∀ c ∈ (Package.BeforeCreate tx self fresh p).recv.CPEs,
      c.PackageID.map (fun q => q.val) = some (Package.BeforeCreate tx self fresh p).recv.ID) ∧
    (Package.BeforeCreate tx self fresh p).recv.CPEs.map cpeFields = p.CPEs.map cpeFields := by
  have h : Package.BeforeCreate tx self fresh p =
      ⟨tx, { p with CPEs := p.CPEs.map (fun c => { c with PackageID := some ⟨self, p.ID⟩ }) },
        none⟩ := by
    unfold Package.BeforeCreate FirstPackage
    rw [First_of_none _ _ _ hmiss]; rfl
  rw [h]
  refine ⟨rfl, rfl, rfl, rfl, rfl, rfl, ?_, ?_⟩
  · intro c hc
    simp only [List.mem_map] at hc
    obtain ⟨c0, _, hc0⟩ := hc
    rw [← hc0]; rfl
  · simp only [List.map_map]
    apply List.map_congr_left
    intro c _
    rfl

theorem Package_BeforeCreate_missing_witness :
    (Package.BeforeCreate exStore 100 101 ⟨7, "npm", "right-pad", [exCpe]⟩).err = none ∧
    (Package.BeforeCreate exStore 100 101 ⟨7, "npm", "right-pad", [exCpe]⟩).recv.CPEs
      = [{ exCpe with PackageID := some ⟨100, 7⟩ }] :=
  ⟨(Package_BeforeCreate_missing exStore 100 101 ⟨7, "npm", "right-pad", [exCpe]⟩
      (by decide)).1,
   (Package_BeforeCreate_missing exStore 100 101 ⟨7, "npm", "right-pad", [exCpe]⟩
      (by decide)).2.2.2.2.2.1⟩

/-! ## `Version` against `VersionNumber` -/

/-- C28: for an operating system with an empty `LabelVersion` and a non-empty
`MajorVersion`, `Version()` equals `VersionNumber()`. -/
theorem OperatingSystem_Version_eq_VersionNumber (os : OperatingSystem)
    (hlabel : os.LabelVersion = "") (hmajor : os.MajorVersion ≠ "") :
    OperatingSystem.Version (some os) = OperatingSystem.VersionNumber (some os) := by
  simp [OperatingSystem.Version, OperatingSystem.VersionNumber, hlabel, hmajor]

theorem OperatingSystem_Version_eq_VersionNumber_witness :
    OperatingSystem.Version (some ⟨1, "debian", "debian", "10", "1", "", "buster"⟩)
      = OperatingSystem.VersionNumber (some ⟨1, "debian", "debian", "10", "1", "", "buster"⟩) :=
  OperatingSystem_Version_eq_VersionNumber ⟨1, "debian", "debian", "10", "1", "", "buster"⟩
    (by decide) (by decide)

/-! ## Idempotence of `OperatingSystem.BeforeCreate` -/

/-- C29: on the same table, applying `OperatingSystem.BeforeCreate` to the
receiver it returned gives that receiver again (and nil, and the same table). -/
theorem OperatingSystem_BeforeCreate_idempotent (tx : Store) (os : OperatingSystem) :
    OperatingSystem.BeforeCreate (OperatingSystem.BeforeCreate tx os).tx
        (OperatingSystem.BeforeCreate tx os).recv
      = OperatingSystem.BeforeCreate tx os := by
  unfold OperatingSystem.BeforeCreate
  cases hf : First OperatingSystem.ID tx.operating_systems
      (osWhere os.Name os.MajorVersion os.MinorVersion) with
  | error x =>
    simp only [OperatingSystem.afterFirst, hf]
  | ok e =>
    have hm := (First_ok_mem hf).2
    have hw : osWhere e.Name e.MajorVersion e.MinorVersion
        = osWhere os.Name os.MajorVersion os.MinorVersion := by
      simp only [osWhere, nocaseEq, Bool.and_eq_true, beq_iff_eq] at hm
      obtain ⟨⟨h1, h2⟩, h3⟩ := hm
      funext r
      simp only [osWhere, nocaseEq, h1, h2, h3]
    simp only [OperatingSystem.afterFirst, hw, hf]


/-! ## A stored CPE without a package -/

/-- The rows a query finds stay the same through the CPE loop when the query
finds a row before it: rows created by the loop are never found by it. -/
theorem mergeCPEs_filter_stable (E : Package) (f : Nat) (c : Cpe) (row : CpeRow)
    (hm : cpeWhereClause (some c) row = true) :
    ∀ (rest : List Cpe) (i : Nat) (tx : Store) (p : Package), row ∈ tx.cpes →
      (Package.mergeCPEs E f i rest tx p).tx.cpes.filter (cpeWhereClause (some c))
        = tx.cpes.filter (cpeWhereClause (some c)) := by
  intro rest
  induction rest with
  | nil => intro i tx p _; rw [Package.mergeCPEs]
  | cons c0 rest ih =>
    intro i tx p hrow
    rcases mergeCPEs_cons E f i c0 rest tx p with
      ⟨_, p1, _, _, h⟩ | ⟨_, _, _, _, _, h, _⟩ | ⟨_, _, h, _⟩ | ⟨hmiss, id, p1, _, h⟩
    · rw [h]; exact ih _ _ _ hrow
    · rw [h]
    · rw [h]
    · rw [h, ih _ _ _ (List.mem_append_left _ hrow)]
      have hnew : cpeWhereClause (some c) { c0.toRow id with package_id := some E.ID } = false := by
        cases hcl : cpeWhereClause (some c) { c0.toRow id with package_id := some E.ID }
        · rfl
        · have := cpeWhereClause_trans c c0 id (some E.ID) row hcl hm
          rw [hmiss row hrow] at this; cases this
      simp [List.filter_append, List.filter_cons, hnew]

/-- C30: when the package lookup finds row `e` and the lookup of a supplied CPE
finds a row without a package, the call does not fail on that CPE (supplied
alone, it returns nil and writes nothing), and after the call, whatever the
other supplied CPEs are, the lookup of that CPE still finds the same row, with
its `package_id` NULL, and no row was created for it. -/
theorem Package_BeforeCreate_unowned_cpe (tx : Store) (self fresh : Nat) (p : Package)
    (e : PackageRow) (c : Cpe) (row : CpeRow)
    (hfound : First PackageRow.id tx.packages (packageWhere p.Ecosystem p.Name) = .ok e)
    (_hc : c ∈ p.CPEs)
    (hrow : First CpeRow.id tx.cpes (cpeWhereClause (some c)) = .ok row)
    (hnil : row.package_id = none) :
    (p.CPEs = [c] → (Package.BeforeCreate tx self fresh p).err = none ∧
      (Package.BeforeCreate tx self fresh p).tx = tx) ∧
    First CpeRow.id (Package.BeforeCreate tx self fresh p).tx.cpes (cpeWhereClause (some c))
      = .ok row ∧
    row.package_id = none ∧
    (∀ x ∈ (Package.BeforeCreate tx self fresh p).tx.cpes, cpeWhereClause (some c) x = true →
      x ∈ tx.cpes) := by
  obtain ⟨h1, h2, _⟩ := Package_BeforeCreate_found tx self fresh p e hfound
  have hm := First_ok_mem hrow
  have hstab := mergeCPEs_filter_stable e.scan fresh c row hm.2 p.CPEs 0 tx p hm.1
  refine ⟨?_, ?_, hnil, ?_⟩
  · intro hp
    rw [h1, h2, hp]
    rcases mergeCPEs_cons e.scan fresh 0 c [] tx p with
      ⟨_, p1, _, _, h⟩ | ⟨row1, q, hrow1, hq, _, _, _⟩ | ⟨hmiss, _, _, _⟩ | ⟨hmiss, _, _, _, _⟩
    · rw [h, Package.mergeCPEs]; exact ⟨rfl, rfl⟩
    · rw [hrow] at hrow1
      injection hrow1 with hrow1
      rw [← hrow1, hnil] at hq
      cases hq
    · have := hmiss row hm.1
      rw [hm.2] at this; cases this
    · have := hmiss row hm.1
      rw [hm.2] at this; cases this
  · rw [← hrow, h1]
    exact First_congr _ _ _ _ hstab
  · intro x hx hxm
    rw [h1] at hx
    have : x ∈ (Package.mergeCPEs e.scan fresh 0 p.CPEs tx p).tx.cpes.filter
        (cpeWhereClause (some c)) := List.mem_filter.2 ⟨hx, hxm⟩
    rw [hstab] at this
    exact (List.mem_filter.1 this).1

theorem Package_BeforeCreate_unowned_cpe_witness :
    (Package.BeforeCreate { exStore with cpes := [{ exCpeRow with package_id := none }] }
      100 101 ⟨0, "npm", "left-pad", [exCpe]⟩).err = none ∧
    (Package.BeforeCreate { exStore with cpes := [{ exCpeRow with package_id := none }] }
      100 101 ⟨0, "npm", "left-pad", [exCpe]⟩).tx.cpes = [{ exCpeRow with package_id := none }] :=
  have h := (Package_BeforeCreate_unowned_cpe
    { exStore with cpes := [{ exCpeRow with package_id := none }] } 100 101
    ⟨0, "npm", "left-pad", [exCpe]⟩ ⟨5, "npm", "left-pad"⟩ exCpe
    { exCpeRow with package_id := none } (by decide) (by decide) (by decide) (by decide)).1 rfl
  ⟨h.1, by rw [h.2]⟩

/-! ## `Package.BeforeCreate` on a stored package: no conflict, no failed creation -/

/-- When no supplied CPE is found under another package, the CPE loop ends
with nil or with a failed CPE creation, never with the conflict error. -/
theorem mergeCPEs_no_conflict (E : Package) (f : Nat) :
    ∀ (rest : List Cpe) (i : Nat) (tx : Store) (p : Package),
      (∀ c ∈ rest, ∀ row, First CpeRow.id tx.cpes (cpeWhereClause (some c)) = .ok row →
        row.package_id = none ∨ row.package_id = some E.ID) →
      (Package.mergeCPEs E f i rest tx p).err = none ∨
        createFailed (Package.mergeCPEs E f i rest tx p).err = true := by
  intro rest
  induction rest with
  | nil => intro i tx p _; rw [Package.mergeCPEs]; exact Or.inl rfl
  | cons c0 rest ih =>
    intro i tx p H
    have Hr : ∀ c ∈ rest, ∀ row, First CpeRow.id tx.cpes (cpeWhereClause (some c)) = .ok row →
        row.package_id = none ∨ row.package_id = some E.ID :=
      fun c hc => H c (List.mem_cons_of_mem _ hc)
    rcases mergeCPEs_cons E f i c0 rest tx p with
      ⟨_, p1, _, _, h⟩ | ⟨row, q, hrow, hq, hne, _, _⟩ | ⟨_, _, _, h⟩ | ⟨hmiss, id, p1, _, h⟩
    · rw [h]; exact ih _ _ _ Hr
    · rcases H c0 (List.mem_cons_self _ _) row hrow with h0 | h0
      · rw [hq] at h0; cases h0
      · rw [hq] at h0; injection h0 with h0; exact absurd h0 hne
    · rw [h]; exact Or.inr rfl
    · rw [h]
      apply ih
      intro c hc row hrow
      have hm := First_ok_mem hrow
      rcases List.mem_append.1 hm.1 with hin | hin
      · have hnew : cpeWhereClause (some c) { c0.toRow id with package_id := some E.ID }
            = false := by
          cases hcl : cpeWhereClause (some c) { c0.toRow id with package_id := some E.ID }
          · rfl
          · have := cpeWhereClause_trans c c0 id (some E.ID) row hcl hm.2
            rw [hmiss row hin] at this; cases this
        apply Hr c hc row
        rw [← hrow]
        apply First_congr
        simp [List.filter_append, List.filter_cons, hnew]
      · simp only [List.mem_singleton] at hin
        subst hin; exact Or.inr rfl

/-- After a successful run of the loop every supplied CPE is stored. -/
theorem mergeCPEs_all_stored (E : Package) (f : Nat) :
    ∀ (rest : List Cpe) (i : Nat) (tx : Store) (p : Package),
      (Package.mergeCPEs E f i rest tx p).err = none →
      ∀ c ∈ rest, ∃ row ∈ (Package.mergeCPEs E f i rest tx p).tx.cpes,
        cpeWhereClause (some c) row = true := by
  intro rest
  induction rest with
  | nil => intro i tx p _ c hc; cases hc
  | cons c0 rest ih =>
    intro i tx p hok c hc
    rcases mergeCPEs_cons E f i c0 rest tx p with
      ⟨row0, p1, hrow0, _, h⟩ | ⟨_, _, _, _, _, _, h⟩ | ⟨_, _, _, h⟩ | ⟨hmiss, id, p1, _, h⟩
    · rw [h] at hok ⊢
      rcases List.mem_cons.1 hc with hc | hc
      · subst hc
        have hm := First_ok_mem hrow0
        exact ⟨row0, Extends_mem (mergeCPEs_extends E f rest (i + 1) tx p1) hm.1, hm.2⟩
      · exact ih _ _ _ hok c hc
    · rw [h] at hok; cases hok
    · rw [h] at hok; cases hok
    · rw [h] at hok ⊢
      rcases List.mem_cons.1 hc with hc | hc
      · subst hc
        exact ⟨{ c.toRow id with package_id := some E.ID },
          Extends_mem (mergeCPEs_extends E f rest (i + 1) _ p1) (by simp),
          cpeWhereClause_self c id (some E.ID)⟩
      · exact ih _ _ _ hok c hc

/-- When every supplied CPE is stored already, the loop creates nothing. -/
theorem mergeCPEs_all_found (E : Package) (f : Nat) :
    ∀ (rest : List Cpe) (i : Nat) (tx : Store) (p : Package),
      (∀ c ∈ rest, ∃ row ∈ tx.cpes, cpeWhereClause (some c) row = true) →
      createFailed (Package.mergeCPEs E f i rest tx p).err = false ∧
      (Package.mergeCPEs E f i rest tx p).tx = tx := by
  intro rest
  induction rest with
  | nil => intro i tx p _; rw [Package.mergeCPEs]; exact ⟨rfl, rfl⟩
  | cons c0 rest ih =>
    intro i tx p H
    obtain ⟨row, hrow, hm⟩ := H c0 (List.mem_cons_self _ _)
    rcases mergeCPEs_cons E f i c0 rest tx p with
      ⟨_, p1, _, _, h⟩ | ⟨_, _, _, _, _, h1, h2⟩ | ⟨hmiss, _, _, _⟩ | ⟨hmiss, _, _, _, _⟩
    · rw [h]; exact ih _ _ _ (fun c hc => H c (List.mem_cons_of_mem _ hc))
    · rw [h1, h2]; exact ⟨rfl, rfl⟩
    · rw [hmiss row hrow] at hm; cases hm
    · rw [hmiss row hrow] at hm; cases hm

/-- C1: when the package lookup finds row `e` (a stored row whose ecosystem and
name equal the incoming ones ignoring letter case), no supplied CPE conflicts
(the lookup of a supplied CPE never finds a row of another package) and no CPE
creation fails (the call does not end in the error of a failed `tx.Create`),
then `Package.BeforeCreate` returns nil and the receiver has the ID, ecosystem
and name of `e`; a second call on the resulting store returns nil with the
same ID again. -/
theorem Package_BeforeCreate_existing (tx : Store) (self fresh : Nat) (p : Package)
    (e : PackageRow)
    (hfound : First PackageRow.id tx.packages (packageWhere p.Ecosystem p.Name) = .ok e)
    (hnoconf : ∀ c ∈ p.CPEs, ∀ row,
      First CpeRow.id tx.cpes (cpeWhereClause (some c)) = .ok row →
      row.package_id = none ∨ row.package_id = some e.id)
    (hcreate : createFailed (Package.BeforeCreate tx self fresh p).err = false) :
    e ∈ tx.packages ∧ nocase e.ecosystem = nocase p.Ecosystem ∧ nocase e.name = nocase p.Name ∧
    (Package.BeforeCreate tx self fresh p).err = none ∧
    (Package.BeforeCreate tx self fresh p).recv.ID = e.id ∧
    (Package.BeforeCreate tx self fresh p).recv.Ecosystem = e.ecosystem ∧
    (Package.BeforeCreate tx self fresh p).recv.Name = e.name ∧
    ∀ self2 fresh2 : Nat,
      (Package.BeforeCreate (Package.BeforeCreate tx self fresh p).tx self2 fresh2 p).err = none ∧
      (Package.BeforeCreate (Package.BeforeCreate tx self fresh p).tx self2 fresh2 p).recv.ID
        = (Package.BeforeCreate tx self fresh p).recv.ID := by
  obtain ⟨h1, h2, h3⟩ := Package_BeforeCreate_found tx self fresh p e hfound
  have hm := First_ok_mem hfound
  have hw : nocase e.ecosystem = nocase p.Ecosystem ∧ nocase e.name = nocase p.Name := by
    simpa [packageWhere, nocaseEq] using hm.2
  -- the first call
  have hok : (Package.mergeCPEs e.scan fresh 0 p.CPEs tx p).err = none := by
    rcases mergeCPEs_no_conflict e.scan fresh p.CPEs 0 tx p hnoconf with h | h
    · exact h
    · rw [h2] at hcreate; rw [hcreate] at h; cases h
  have hrecv := h3 hok
  refine ⟨hm.1, hw.1, hw.2, by rw [h2, hok], by rw [hrecv]; rfl, by rw [hrecv]; rfl,
    by rw [hrecv]; rfl, ?_⟩
  -- the second call
  intro self2 fresh2
  have hext := mergeCPEs_extends e.scan fresh p.CPEs 0 tx p
  obtain ⟨_, g2, _, added, g4, _, g6⟩ := hext
  have hfound2 : First PackageRow.id (Package.BeforeCreate tx self fresh p).tx.packages
      (packageWhere p.Ecosystem p.Name) = .ok e := by rw [h1, g2]; exact hfound
  obtain ⟨k1, k2, k3⟩ := Package_BeforeCreate_found (Package.BeforeCreate tx self fresh p).tx
    self2 fresh2 p e hfound2
  have hnoconf2 : ∀ c ∈ p.CPEs, ∀ row,
      First CpeRow.id (Package.BeforeCreate tx self fresh p).tx.cpes (cpeWhereClause (some c))
        = .ok row → row.package_id = none ∨ row.package_id = some e.id := by
    intro c hc row hrow
    rw [h1] at hrow
    have hrm := First_ok_mem hrow
    rw [g4] at hrm
    rcases List.mem_append.1 hrm.1 with hin | hin
    · have hstab := mergeCPEs_filter_stable e.scan fresh c row hrm.2 p.CPEs 0 tx p hin
      apply hnoconf c hc row
      rw [← hrow]
      exact (First_congr _ _ _ _ hstab).symm
    · obtain ⟨c1, _, ha⟩ := g6 row hin
      right; rw [ha]; rfl
  have hstored : ∀ c ∈ p.CPEs, ∃ row ∈ (Package.BeforeCreate tx self fresh p).tx.cpes,
      cpeWhereClause (some c) row = true := by
    intro c hc
    rw [h1]
    exact mergeCPEs_all_stored e.scan fresh p.CPEs 0 tx p hok c hc
  have hok2 : (Package.mergeCPEs e.scan fresh2 0 p.CPEs
      (Package.BeforeCreate tx self fresh p).tx p).err = none := by
    rcases mergeCPEs_no_conflict e.scan fresh2 p.CPEs 0 _ p hnoconf2 with h | h
    · exact h
    · rw [(mergeCPEs_all_found e.scan fresh2 p.CPEs 0 _ p hstored).1] at h; cases h
  exact ⟨by rw [k2, hok2], by rw [k3 hok2, hrecv]⟩

theorem Package_BeforeCreate_existing_witness :
    (Package.BeforeCreate exStore 100 101
      ⟨0, "NPM", "Left-Pad", [{ exCpe with ID := 1 }, { exCpe with Product := "left-pad" }]⟩).err
      = none ∧
    (Package.BeforeCreate exStore 100 101
      ⟨0, "NPM", "Left-Pad",
        [{ exCpe with ID := 1 }, { exCpe with Product := "left-pad" }]⟩).recv.ID = 5 :=
  have h := Package_BeforeCreate_existing exStore 100 101
    ⟨0, "NPM", "Left-Pad", [{ exCpe with ID := 1 }, { exCpe with Product := "left-pad" }]⟩
    ⟨5, "npm", "left-pad"⟩ (by decide)
    (by
      intro c hc row hrow
      have hm := First_ok_mem hrow
      have hr : row = exCpeRow := by simpa [exStore] using hm.1
      rw [hr]; exact Or.inr rfl)
    (by decide)
  ⟨h.2.2.2.1, h.2.2.2.2.1⟩

/-! ## The store after a conflict -/

/-- When the CPE loop ends with the conflict error, the supplied CPEs are
those handled before the conflict, the conflicting CPE and the ones never
reached; the store is the one before the loop with the rows of the CPEs
handled before the conflict, and every such CPE is stored under the existing
package if it was not stored under another owner before. -/
theorem mergeCPEs_conflict_split (E : Package) (f : Nat) :
    ∀ (rest : List Cpe) (i : Nat) (tx : Store) (p : Package),
      (Package.mergeCPEs E f i rest tx p).err = some .cpeConflict →
      ∃ pre c post, rest = pre ++ c :: post ∧
        (∃ row q, First CpeRow.id (Package.mergeCPEs E f i rest tx p).tx.cpes
            (cpeWhereClause (some c)) = .ok row ∧ row.package_id = some q ∧ q ≠ E.ID) ∧
        Store.Extends pre E.ID tx (Package.mergeCPEs E f i rest tx p).tx ∧
        ∀ c1 ∈ pre,
          (∀ r ∈ tx.cpes, cpeWhereClause (some c1) r = true → r.package_id = some E.ID) →
          ∃ row ∈ (Package.mergeCPEs E f i rest tx p).tx.cpes,
            cpeWhereClause (some c1) row = true ∧ row.package_id = some E.ID := by
  intro rest
  induction rest with
  | nil => intro i tx p h; rw [Package.mergeCPEs] at h; cases h
  | cons c0 rest ih =>
    intro i tx p herr
    rcases mergeCPEs_cons E f i c0 rest tx p with
      ⟨row0, p1, hrow0, _, h⟩ | ⟨row, q, hrow, hq, hne, h1, _⟩ | ⟨_, _, _, h⟩ |
      ⟨hmiss, id, p1, _, h⟩
    · rw [h] at herr ⊢
      obtain ⟨pre, c, post, hsplit, hconf, hext, hpre⟩ := ih _ _ _ herr
      refine ⟨c0 :: pre, c, post, by rw [hsplit]; rfl, hconf, Extends_tail hext, ?_⟩
      intro c1 hc1 hown
      rcases List.mem_cons.1 hc1 with hc1 | hc1
      · subst hc1
        have hm := First_ok_mem hrow0
        exact ⟨row0, Extends_mem hext hm.1, hm.2, hown row0 hm.1 hm.2⟩
      · exact hpre c1 hc1 hown
    · refine ⟨[], c0, rest, rfl, ⟨row, q, by rw [h1]; exact hrow, hq, hne⟩, ?_, ?_⟩
      · rw [h1]; exact Extends_refl _ _ _
      · intro c1 hc1; cases hc1
    · rw [h] at herr; cases herr
    · rw [h] at herr ⊢
      obtain ⟨pre, c, post, hsplit, hconf, hext, hpre⟩ := ih _ _ _ herr
      refine ⟨c0 :: pre, c, post, by rw [hsplit]; rfl, hconf, Extends_step hext, ?_⟩
      intro c1 hc1 hown
      rcases List.mem_cons.1 hc1 with hc1 | hc1
      · subst hc1
        exact ⟨{ c1.toRow id with package_id := some E.ID }, Extends_mem hext (by simp),
          cpeWhereClause_self c1 id (some E.ID), rfl⟩
      · apply hpre c1 hc1
        intro r hr hm
        rcases List.mem_append.1 hr with hr | hr
        · exact hown r hr hm
        · simp only [List.mem_singleton] at hr
          subst hr; rfl

/-- C20 (amended): when the package lookup finds row `e` and
`Package.BeforeCreate` returns the conflict error, the supplied CPEs are some
CPEs `pre`, then the conflicting CPE `c`, whose lookup finds a row that existed
before the call and belongs to another package, then the rest.  The hook has
undone nothing: every row that existed is still stored, the store it leaves is
the store before the call followed by rows of CPEs of `pre`, and every CPE of
`pre` that matched no stored row has a row that was not there before, matching
it and owned by package `e` (removing those rows is left to the enclosing
transaction). -/
theorem Package_BeforeCreate_conflict_store (tx : Store) (self fresh : Nat) (p : Package)
    (e : PackageRow)
    (hfound : First PackageRow.id tx.packages (packageWhere p.Ecosystem p.Name) = .ok e)
    (herr : (Package.BeforeCreate tx self fresh p).err = some .cpeConflict) :
    ∃ pre c post, p.CPEs = pre ++ c :: post ∧
      (∃ row q, row ∈ tx.cpes ∧ cpeWhereClause (some c) row = true ∧
        row.package_id = some q ∧ q ≠ e.id) ∧
      Store.Extends pre e.id tx (Package.BeforeCreate tx self fresh p).tx ∧
      (∀ r ∈ tx.cpes, r ∈ (Package.BeforeCreate tx self fresh p).tx.cpes) ∧
      ∀ c1 ∈ pre, (∀ r ∈ tx.cpes, cpeWhereClause (some c1) r = false) →
        ∃ row ∈ (Package.BeforeCreate tx self fresh p).tx.cpes, row ∉ tx.cpes ∧
          cpeWhereClause (some c1) row = true ∧ row.package_id = some e.id := by
  obtain ⟨h1, h2, _⟩ := Package_BeforeCreate_found tx self fresh p e hfound
  rw [h2] at herr
  obtain ⟨pre, c, post, hsplit, ⟨row, q, hrow, hq, hne⟩, hext, hpre⟩ :=
    mergeCPEs_conflict_split e.scan fresh p.CPEs 0 tx p herr
  rw [h1]
  refine ⟨pre, c, post, hsplit, ⟨row, q, ?_, (First_ok_mem hrow).2, hq, hne⟩, hext,
    fun r hr => Extends_mem hext hr, ?_⟩
  · obtain ⟨_, _, _, added, g4, _, g6⟩ := hext
    have hin := (First_ok_mem hrow).1
    rw [g4] at hin
    rcases List.mem_append.1 hin with hin | hin
    · exact hin
    · obtain ⟨c2, _, ha⟩ := g6 row hin
      rw [ha] at hq
      injection hq with hq
      exact absurd hq.symm hne
  · intro c1 hc1 hmiss
    obtain ⟨r1, hr1, hm1, hp1⟩ := hpre c1 hc1
      (by intro r hr hmr; rw [hmiss r hr] at hmr; cases hmr)
    refine ⟨r1, hr1, ?_, hm1, hp1⟩
    intro hin
    rw [hmiss r1 hin] at hm1
    cases hm1

theorem Package_BeforeCreate_conflict_store_witness :
    ∃ pre c post, [{ exCpe with Product := "right-pad" }, exCpe] = pre ++ c :: post ∧
      (∃ row q, row ∈ exStore.cpes ∧ cpeWhereClause (some c) row = true ∧
        row.package_id = some q ∧ q ≠ 6) ∧
      Store.Extends pre 6
        { exStore with packages := exStore.packages ++ [⟨6, "npm", "right-pad"⟩] }
        (Package.BeforeCreate
          { exStore with packages := exStore.packages ++ [⟨6, "npm", "right-pad"⟩] } 100 101
          ⟨0, "npm", "right-pad", [{ exCpe with Product := "right-pad" }, exCpe]⟩).tx ∧
      (∀ r ∈ exStore.cpes, r ∈ (Package.BeforeCreate
          { exStore with packages := exStore.packages ++ [⟨6, "npm", "right-pad"⟩] } 100 101
          ⟨0, "npm", "right-pad", [{ exCpe with Product := "right-pad" }, exCpe]⟩).tx.cpes) ∧
      ∀ c1 ∈ pre, (∀ r ∈ exStore.cpes, cpeWhereClause (some c1) r = false) →
        ∃ row ∈ (Package.BeforeCreate
            { exStore with packages := exStore.packages ++ [⟨6, "npm", "right-pad"⟩] } 100 101
            ⟨0, "npm", "right-pad", [{ exCpe with Product := "right-pad" }, exCpe]⟩).tx.cpes,
          row ∉ exStore.cpes ∧ cpeWhereClause (some c1) row = true ∧
            row.package_id = some 6 :=
  Package_BeforeCreate_conflict_store
    { exStore with packages := exStore.packages ++ [⟨6, "npm", "right-pad"⟩] } 100 101
    ⟨0, "npm", "right-pad", [{ exCpe with Product := "right-pad" }, exCpe]⟩
    ⟨6, "npm", "right-pad"⟩ (by decide) (by decide)

/-! ## CPEs that differ in the letter case of `Other` -/

/-- C7 (counterexample): package 5 exists and the call supplies two CPEs that
no stored row matches and that differ only in the letter case of `Other`
(`X`, then `x`); the call succeeds, the second CPE resolves to the row created
for the first, and no stored row has the nine fields of the second CPE. -/
theorem Package_BeforeCreate_other_case :
    (∀ r ∈ exStore.cpes,
      cpeWhereClause (some { exCpe with Product := "left-pad", Other := "x" }) r = false) ∧
    (Package.BeforeCreate exStore 100 101 ⟨0, "npm", "left-pad",
      [{ exCpe with Product := "left-pad", Other := "X" },
       { exCpe with Product := "left-pad", Other := "x" }]⟩).err = none ∧
    (Package.BeforeCreate exStore 100 101 ⟨0, "npm", "left-pad",
      [{ exCpe with Product := "left-pad", Other := "X" },
       { exCpe with Product := "left-pad", Other := "x" }]⟩).tx.cpes
      = exStore.cpes ++
        [{ Cpe.toRow { exCpe with Product := "left-pad", Other := "X" } 2 with
            package_id := some 5 }] ∧
    ¬ ∃ row ∈ (Package.BeforeCreate exStore 100 101 ⟨0, "npm", "left-pad",
        [{ exCpe with Product := "left-pad", Other := "X" },
         { exCpe with Product := "left-pad", Other := "x" }]⟩).tx.cpes,
      row.package_id = some 5 ∧
      [row.part, row.vendor, row.product, row.edition, row.language, row.software_edition,
        row.target_hardware, row.target_software, row.other]
        = cpeFields { exCpe with Product := "left-pad", Other := "x" } := by
  decide

/-- A supplied CPE that no stored row matches and that no CPE supplied before
it matches is created as it is: after a successful run its own row is stored. -/
theorem mergeCPEs_creates_exact (E : Package) (f : Nat) (c : Cpe) (post : List Cpe) :
    ∀ (pre : List Cpe) (i : Nat) (tx : Store) (p : Package),
      (Package.mergeCPEs E f i (pre ++ c :: post) tx p).err = none →
      (∀ r ∈ tx.cpes, cpeWhereClause (some c) r = false) →
      (∀ c1 ∈ pre, cpeWhereClause (some c) (c1.toRow 0) = false) →
      ∃ id, { c.toRow id with package_id := some E.ID }
        ∈ (Package.mergeCPEs E f i (pre ++ c :: post) tx p).tx.cpes := by
  intro pre
  induction pre with
  | nil =>
    intro i tx p hok hmiss _
    simp only [List.nil_append] at hok ⊢
    rcases mergeCPEs_cons E f i c post tx p with
      ⟨row0, _, hrow0, _, _⟩ | ⟨_, _, _, _, _, _, h⟩ | ⟨_, _, _, h⟩ | ⟨_, id, p1, _, h⟩
    · have hm := First_ok_mem hrow0
      rw [hmiss row0 hm.1] at hm; cases hm.2
    · rw [h] at hok; cases hok
    · rw [h] at hok; cases hok
    · rw [h]
      exact ⟨id, Extends_mem (mergeCPEs_extends E f post (i + 1) _ p1) (by simp)⟩
  | cons c0 pre ih =>
    intro i tx p hok hmiss hpre
    simp only [List.cons_append] at hok ⊢
    have hpre1 : ∀ c1 ∈ pre, cpeWhereClause (some c) (c1.toRow 0) = false :=
      fun c1 hc1 => hpre c1 (List.mem_cons_of_mem _ hc1)
    rcases mergeCPEs_cons E f i c0 (pre ++ c :: post) tx p with
      ⟨_, p1, _, _, h⟩ | ⟨_, _, _, _, _, _, h⟩ | ⟨_, _, _, h⟩ | ⟨_, id, p1, _, h⟩
    · rw [h] at hok ⊢
      exact ih _ _ _ hok hmiss hpre1
    · rw [h] at hok; cases hok
    · rw [h] at hok; cases hok
    · rw [h] at hok ⊢
      apply ih _ _ _ hok _ hpre1
      intro r hr
      rcases List.mem_append.1 hr with hr | hr
      · exact hmiss r hr
      · simp only [List.mem_singleton] at hr
        subst hr
        have h0 := hpre c0 (List.mem_cons_self _ _)
        simpa [cpeWhereClause, Cpe.toRow] using h0

/-- C7 (amended): when the package lookup finds row `e` and
`Package.BeforeCreate` succeeds, every supplied CPE that the lookup matches
with no stored row has, in the store after the call, a row that was not there
before, is owned by package `e` and equals the CPE on the first eight
descriptive fields and on `Other` up to letter case; the row has exactly the
nine fields of the CPE when no CPE supplied before it in the same call matches
it under the lookup. -/
theorem Package_BeforeCreate_creates (tx : Store) (self fresh : Nat) (p : Package)
    (e : PackageRow)
    (hfound : First PackageRow.id tx.packages (packageWhere p.Ecosystem p.Name) = .ok e)
    (hok : (Package.BeforeCreate tx self fresh p).err = none) :
    (∀ c ∈ p.CPEs, (∀ r ∈ tx.cpes, cpeWhereClause (some c) r = false) →
      ∃ row ∈ (Package.BeforeCreate tx self fresh p).tx.cpes, row ∉ tx.cpes ∧
        row.package_id = some e.id ∧
        row.part = c.Part ∧ row.vendor = c.Vendor ∧ row.product = c.Product ∧
        row.edition = c.Edition ∧ row.language = c.Language ∧
        row.software_edition = c.SoftwareEdition ∧ row.target_hardware = c.TargetHardware ∧
        row.target_software = c.TargetSoftware ∧ nocase row.other = nocase c.Other) ∧
    (∀ pre c post, p.CPEs = pre ++ c :: post →
      (∀ r ∈ tx.cpes, cpeWhereClause (some c) r = false) →
      (∀ c1 ∈ pre, cpeWhereClause (some c) (c1.toRow 0) = false) →
      ∃ row ∈ (Package.BeforeCreate tx self fresh p).tx.cpes, row ∉ tx.cpes ∧
        row = { c.toRow row.id with package_id := some e.id }) := by
  obtain ⟨h1, h2, _⟩ := Package_BeforeCreate_found tx self fresh p e hfound
  rw [h2] at hok
  constructor
  · intro c hc hmiss
    obtain ⟨row, hrow, hm, hp⟩ := mergeCPEs_creates e.scan fresh p.CPEs 0 tx p hok c hc
      (by intro r hr hmr; rw [hmiss r hr] at hmr; cases hmr)
    refine ⟨row, by rw [h1]; exact hrow, ?_, hp, (cpeWhereClause_iff c row).1 hm⟩
    intro hin
    rw [hmiss row hin] at hm
    cases hm
  · intro pre c post hsplit hmiss hpre
    rw [hsplit] at hok
    obtain ⟨id, hid⟩ := mergeCPEs_creates_exact e.scan fresh c post pre 0 tx p hok hmiss hpre
    refine ⟨{ c.toRow id with package_id := some e.id }, by rw [h1, hsplit]; exact hid, ?_, rfl⟩
    intro hin
    have := hmiss _ hin
    rw [cpeWhereClause_self c id (some e.id)] at this
    cases this

theorem Package_BeforeCreate_creates_witness :
    ∃ row ∈ (Package.BeforeCreate exStore 100 101
        ⟨0, "NPM", "Left-Pad", [{ exCpe with Product := "left-pad" }]⟩).tx.cpes,
      row ∉ exStore.cpes ∧
        row = { Cpe.toRow { exCpe with Product := "left-pad" } row.id with package_id := some 5 } :=
  (Package_BeforeCreate_creates exStore 100 101
    ⟨0, "NPM", "Left-Pad", [{ exCpe with Product := "left-pad" }]⟩ ⟨5, "npm", "left-pad"⟩
    (by decide) (by decide)).2 [] { exCpe with Product := "left-pad" } [] rfl (by decide)
    (by decide)

end V6

/-! # Theorems on the commands -/

namespace Commands

/-- The model of `v5Namespace` passes every case of `TestV5Namespace`. -/
theorem v5Namespace_tests :
    ∀ t ∈ v5NamespaceTests, v5Namespace t.1 t.2.1 t.2.2.1 t.2.2.2.1 = t.2.2.2.2 := by
  decide

/-- C22: for provider `github` the namespace is `github:language:` followed by
the language of the ecosystem, where the language is given by the alias table
and is the ecosystem itself outside the table. -/
theorem v5Namespace_github (ecosystem osName osVersion : String) :
    v5Namespace "github" ecosystem osName osVersion = "github:language:" ++ languageOf ecosystem ∧
    (languageOf "golang" = "go" ∧ languageOf "go-module" = "go" ∧
      languageOf "composer" = "php" ∧ languageOf "php-composer" = "php" ∧
      languageOf "cargo" = "rust" ∧ languageOf "rust-crate" = "rust" ∧
      languageOf "pub" = "dart" ∧ languageOf "dart-pub" = "dart" ∧
      languageOf "nuget" = "dotnet" ∧ languageOf "maven" = "java" ∧
      languageOf "swifturl" = "swift" ∧
      languageOf "npm" = "javascript" ∧ languageOf "node" = "javascript" ∧
      languageOf "pypi" = "python" ∧ languageOf "pip" = "python" ∧
      languageOf "rubygems" = "ruby" ∧ languageOf "gem" = "ruby") ∧
    (ecosystem ∉ ["golang", "go-module", "composer", "php-composer", "cargo", "rust-crate",
        "pub", "dart-pub", "nuget", "maven", "swifturl", "npm", "node", "pypi", "pip",
        "rubygems", "gem"] → languageOf ecosystem = ecosystem) := by
  refine ⟨?_, by decide, ?_⟩
  · have h1 : ¬ ("github" = "nvd") := by decide
    simp [v5Namespace, h1]
  · intro h
    simp only [List.mem_cons, List.mem_singleton, List.not_mem_nil, or_false, not_or] at h
    obtain ⟨a1, a2, a3, a4, a5, a6, a7, a8, a9, a10, a11, a12, a13, a14, a15, a16, a17⟩ := h
    simp [languageOf, a1, a2, a3, a4, a5, a6, a7, a8, a9, a10, a11, a12, a13, a14, a15, a16, a17]

theorem v5Namespace_github_witness :
    v5Namespace "github" "hex" "" "" = "github:language:hex" :=
  have h := v5Namespace_github "hex" "" ""
  h.1.trans (by rw [h.2.2 (by decide)]; decide)


/-- C23: for a provider other than `nvd` and `github` the namespace ends with
`:` and the version label, which is the part of the version before its first
`.` when the OS name is `redhat` or `oracle`, and the version itself for every
other OS name. -/
theorem v5Namespace_versionLabel (provider ecosystem osName osVersion : String)
    (hnvd : provider ≠ "nvd") (hgithub : provider ≠ "github") :
    v5Namespace provider ecosystem osName osVersion
      = osName ++ ":distro:" ++ familySlug osName osVersion ++ ":" ++ versionLabel osName osVersion ∧
    ((osName = "redhat" ∨ osName = "oracle") →
      versionLabel osName osVersion
        = String.mk (osVersion.data.takeWhile (fun ch => ch ≠ '.'))) ∧
    (osName ≠ "redhat" → osName ≠ "oracle" → versionLabel osName osVersion = osVersion) ∧
    (versionLabel "redhat" "8.6" = "8" ∧ versionLabel "oracle" "9.3.1" = "9" ∧
      versionLabel "redhat" "8" = "8" ∧ versionLabel "ubuntu" "22.04" = "22.04" ∧
      versionLabel "sles" "15.5" = "15.5" ∧ versionLabel "wolfi" "rolling" = "rolling") := by
  refine ⟨by simp [v5Namespace, hnvd, hgithub], ?_, ?_, by decide⟩
  · intro h
    simp [versionLabel, h, majorOf]
  · intro h1 h2
    simp [versionLabel, h1, h2]

theorem v5Namespace_versionLabel_witness :
    v5Namespace "rhel" "" "redhat" "8.6" = "redhat:distro:redhat:8" ∧
    v5Namespace "ubuntu" "" "ubuntu" "22.04" = "ubuntu:distro:ubuntu:22.04" :=
  ⟨(v5Namespace_versionLabel "rhel" "" "redhat" "8.6" (by decide) (by decide)).1.trans
      (by decide),
   (v5Namespace_versionLabel "ubuntu" "" "ubuntu" "22.04" (by decide) (by decide)).1.trans
      (by decide)⟩

/-- C24: for a provider other than `nvd` and `github` the namespace is
`<osName>:distro:<family>:<versionLabel>`, whatever the provider ID; the family
is `azurelinux` for `mariner` with a major version of at least 3, `mariner` for
`mariner` with a major version below 3, `oraclelinux` for `oracle`,
`amazonlinux` for `amazon`, and the OS name itself otherwise. -/
theorem v5Namespace_family (provider ecosystem osName osVersion : String)
    (hnvd : provider ≠ "nvd") (hgithub : provider ≠ "github") :
    v5Namespace provider ecosystem osName osVersion
      = osName ++ ":distro:" ++ familySlug osName osVersion ++ ":" ++ versionLabel osName osVersion ∧
    (∀ major, osName = "mariner" → parseMajor osVersion = some major → 3 ≤ major →
      familySlug osName osVersion = "azurelinux") ∧
    (∀ major, osName = "mariner" → parseMajor osVersion = some major → major < 3 →
      familySlug osName osVersion = "mariner") ∧
    (osName = "oracle" → familySlug osName osVersion = "oraclelinux") ∧
    (osName = "amazon" → familySlug osName osVersion = "amazonlinux") ∧
    (osName ≠ "mariner" → osName ≠ "oracle" → osName ≠ "amazon" →
      familySlug osName osVersion = osName) := by
  refine ⟨by simp [v5Namespace, hnvd, hgithub], ?_, ?_, ?_, ?_, ?_⟩
  · intro major h1 h2 h3
    simp [familySlug, h1, h2, h3]
  · intro major h1 h2 h3
    simp [familySlug, h1, h2, Nat.not_le.2 h3]
  · intro h
    have h1 : ¬ ("oracle" = "mariner") := by decide
    simp [familySlug, h, h1]
  · intro h
    have h1 : ¬ ("amazon" = "mariner") := by decide
    have h2 : ¬ ("amazon" = "oracle") := by decide
    simp [familySlug, h, h1, h2]
  · intro h1 h2 h3
    simp [familySlug, h1, h2, h3]

theorem v5Namespace_family_witness :
    v5Namespace "rhel" "" "redhat" "8.6" = "redhat:distro:redhat:8" ∧
    familySlug "mariner" "3.0" = "azurelinux" ∧ familySlug "mariner" "2.0" = "mariner" ∧
    familySlug "oracle" "9.3.1" = "oraclelinux" :=
  ⟨(v5Namespace_family "rhel" "" "redhat" "8.6" (by decide) (by decide)).1.trans (by decide),
   (v5Namespace_family "mariner" "" "mariner" "3.0" (by decide) (by decide)).2.1 3 rfl
      (by decide) (by decide),
   (v5Namespace_family "mariner" "" "mariner" "2.0" (by decide) (by decide)).2.2.1 2 rfl
      (by decide) (by decide),
   (v5Namespace_family "oracle" "" "oracle" "9.3.1" (by decide) (by decide)).2.2.2.1 rfl⟩

/-! ## The command `cve` -/

/-- C25: for a non-nil list of vulnerabilities and an output format other than
`table` and `json`, `present` returns the error
`unsupported output format: <format>` and the writer holds what it held. -/
theorem present_unsupported (env : Collaborators) (outputFormat : String)
    (vs : List Vulnerability) (output : String)
    (htable : outputFormat ≠ "table") (hjson : outputFormat ≠ "json") :
    present env outputFormat (some vs) output
      = (output, some (.msg ("unsupported output format: " ++ outputFormat))) := by
  simp [present, htable, hjson]

theorem present_unsupported_witness :
    present exEnv "yaml" (some [⟨"CVE-2024-0001", "tomcat", "nvd:cpe", "< 9.0.1"⟩]) ""
      = ("", some (.msg "unsupported output format: yaml")) :=
  (present_unsupported exEnv "yaml" [⟨"CVE-2024-0001", "tomcat", "nvd:cpe", "< 9.0.1"⟩] ""
    (by decide) (by decide)).trans (by decide)

/-- C26 (the code at the failing input): the validator `cobra.MaximumNArgs(1)`
accepts the empty argument list, and `RunE` panics on it when it reads
`args[0]`. -/
theorem RunE_no_args (env : Collaborators) (opts : cveExploreOptions) :
    MaximumNArgs 1 [] = none ∧
    RunE env opts [] = .panicked "runtime error: index out of range [0] with length 0" :=
  ⟨by decide, rfl⟩

/-- The part of C26 the code does satisfy: with one argument `RunE` reads it
and runs `runExploreCVE` on it. -/
theorem RunE_one_arg (env : Collaborators) (opts : cveExploreOptions) (cveID : String) :
    MaximumNArgs 1 [cveID] = none ∧
    RunE env opts [cveID] = .returned (runExploreCVE env opts cveID) :=
  ⟨by simp [MaximumNArgs], rfl⟩

/-- C27: when the database loads and the lookup returns an empty list (nil or
of length 0), `runExploreCVE` reports the one text
`CVE doesn't exist in the DB` with a newline and returns nil, whatever the
output option is. -/
theorem runExploreCVE_empty (env : Collaborators) (opts : cveExploreOptions) (cveID : String)
    (vs : Vulnerabilities)
    (hload : env.loadDB = none) (hget : env.get cveID = .ok vs) (hempty : len vs = 0) :
    runExploreCVE env opts cveID = (["CVE doesn't exist in the DB\n"], none) := by
  simp [runExploreCVE, hload, hget, hempty]

theorem runExploreCVE_empty_witness :
    runExploreCVE exEnv ⟨"yaml", ""⟩ "CVE-1999-0001" = (["CVE doesn't exist in the DB\n"], none) ∧
    (present exEnv "yaml" (some []) "").2 = some (.msg "unsupported output format: yaml") :=
  ⟨runExploreCVE_empty exEnv ⟨"yaml", ""⟩ "CVE-1999-0001" (some []) rfl (by decide) rfl,
   by decide⟩

end Commands
